import Mathlib

/-!
# Verification of the sticker-sheet segmentation engine

This file gives a shallow embedding of `src/services/imageProcessor.ts`
(the canonical first revision of the file: `isBackground`,
`extractStickerFromRect` and `processStickerSheet`), and settles the frozen
claims about it.

Modelling conventions:
* a decoded raster image is a width, a height and a function from linear
  (row-major) pixel index to an RGBA sample;
* the `Uint8Array` masks (binary map, eroded maps, visited map, global
  claimed map) hold only flags 0/1 and are modelled as a natural number
  whose bit `i` is the flag at linear index `i`;
* the pixel `for` loops become folds over index ranges; the `while` loops
  over an explicit stack become fuel-bounded recursion, with fuel
  `width*height + 1`, which dominates the loop's true iteration count
  (every iteration pops one entry, and each pixel is pushed at most once
  because it is marked visited when pushed);
* JavaScript numbers holding pixel coordinates are naturals; rectangle
  fields and the neighbour-offset arithmetic, which can go negative, are
  integers.
-/

namespace ImageProcessor

/-- Fold over `lo, lo+1, ..., lo+len-1` in increasing order with a `Nat`
accumulator: the shape of the mask-building pixel loops.  Defined by
`Nat.rec` so the kernel unfolds it one literal step at a time. -/
def foldRangeN (f : Nat → Nat → Nat) (len : Nat) : Nat → Nat → Nat :=
  Nat.rec (motive := fun _ => Nat → Nat → Nat)
    (fun _ acc => acc)
    (fun _ ih lo acc => ih (lo + 1) (f acc lo))
    len

theorem foldRangeN_zero (f : Nat → Nat → Nat) (lo acc : Nat) :
    foldRangeN f 0 lo acc = acc := rfl

theorem foldRangeN_succ (f : Nat → Nat → Nat) (n lo acc : Nat) :
    foldRangeN f (n + 1) lo acc = foldRangeN f n (lo + 1) (f acc lo) := rfl

/-- Fold over `lo, lo+1, ..., lo+len-1` in increasing order with an
arbitrary accumulator: the shape of the component-scan and bounding-box
scan loops. -/
def foldRangeSt {σ : Type} (f : σ → Nat → σ) (len : Nat) : Nat → σ → σ :=
  Nat.rec (motive := fun _ => Nat → σ → σ)
    (fun _ acc => acc)
    (fun _ ih lo acc => ih (lo + 1) (f acc lo))
    len

theorem foldRangeSt_zero {σ : Type} (f : σ → Nat → σ) (lo : Nat) (acc : σ) :
    foldRangeSt f 0 lo acc = acc := rfl

theorem foldRangeSt_succ {σ : Type} (f : σ → Nat → σ) (n lo : Nat) (acc : σ) :
    foldRangeSt f (n + 1) lo acc = foldRangeSt f n (lo + 1) (f acc lo) := rfl

/-- An RGBA sample, 8-bit channels as naturals. -/
structure RGBA where
  r : Nat
  g : Nat
  b : Nat
  a : Nat

/-- A decoded raster image: width, height, and the pixel at each linear
row-major index (the `data` array read four bytes at a time). -/
structure Img where
  width : Nat
  height : Nat
  pix : Nat → RGBA

/-- `isBackground(r, g, b, a, threshold)`: transparent (alpha below 20) or
all three channels strictly above the threshold. -/
def isBackground (r g b a threshold : Nat) : Bool :=
  if a < 20 then true
  else decide (threshold < r) && decide (threshold < g) && decide (threshold < b)

/-- A bounding box `{minX, maxX, minY, maxY}`, inclusive pixel coordinates. -/
structure Rect where
  minX : Int
  maxX : Int
  minY : Int
  maxY : Int
deriving DecidableEq, Repr

/-- Step 1 of `processStickerSheet`: bit `i` is set iff pixel `i` is not
background at threshold `bgThreshold = 240`. -/
def binaryMap (img : Img) : Nat :=
  foldRangeN (fun acc i =>
    let p := img.pix i
    if !isBackground p.r p.g p.b p.a 240 then acc ||| (1 <<< i) else acc)
    (img.width * img.height) 0 0

/-- One erosion pass: the scan covers only interior pixels
(`1 ≤ x ≤ w-2`, `1 ≤ y ≤ h-2`) and writes them into a zero-initialised temp
map; an interior foreground pixel survives iff its four linear-index
neighbours `idx-1, idx+1, idx-w, idx+w` are all foreground.  Pixels outside
the scan range keep the temp map's initial 0. -/
def erodePass (w h m : Nat) : Nat :=
  foldRangeN (fun acc y =>
    foldRangeN (fun acc x =>
      let idx := y * w + x
      if m.testBit idx then
        if !m.testBit (idx - 1) || !m.testBit (idx + 1) ||
           !m.testBit (idx - w) || !m.testBit (idx + w) then acc
        else acc ||| (1 <<< idx)
      else acc) (w - 2) 1 acc) (h - 2) 1 0

/-- Iterated erosion passes. -/
def erodeN (w h : Nat) : Nat → Nat → Nat
  | 0, m => m
  | k + 1, m => erodeN w h k (erodePass w h m)

/-- `erosionPasses = 6` in `processStickerSheet`. -/
def erosionPasses : Nat := 6

/-- The eroded working map used for seed detection. -/
def erodedMap (img : Img) : Nat :=
  erodeN img.width img.height erosionPasses (binaryMap img)

/-- The 4-neighbour candidate list `[curr-1, curr+1, curr-width, curr+width]`
of the component-labelling flood fill, as integers (JavaScript numbers may go
negative here; the loop filters them with `n >= 0 && n < width*height`). -/
def neighbors4 (w curr : Nat) : List Int :=
  [(curr : Int) - 1, (curr : Int) + 1, (curr : Int) - (w : Int), (curr : Int) + (w : Int)]

/-- The 8-neighbour candidate list of the region-growing flood fill. -/
def neighbors8 (w curr : Nat) : List Int :=
  [(curr : Int) - 1, (curr : Int) + 1, (curr : Int) - (w : Int), (curr : Int) + (w : Int),
   (curr : Int) - (w : Int) - 1, (curr : Int) - (w : Int) + 1,
   (curr : Int) + (w : Int) - 1, (curr : Int) + (w : Int) + 1]

/-- State of one stack-based flood fill: the explicit stack, the shared
visited/claimed bit map, the running bounding box, and (for the proofs and
the footprint claims) the pixels popped so far, most recent first. -/
structure FillState where
  stack : List Nat
  visited : Nat
  minX : Nat
  maxX : Nat
  minY : Nat
  maxY : Nat
  popped : List Nat
deriving DecidableEq

/-- The only filter applied to a neighbour candidate's index:
`n >= 0 && n < width * height`. -/
def inRangeIdx (w h : Nat) (n : Int) : Bool :=
  0 ≤ n && n < (w * h : Int)

/-- Processing of one neighbour candidate `n`: push it and mark it visited
if it is in range, foreground in the mask, and unvisited. -/
def pushStep (w h mask : Nat) (st : FillState) (n : Int) : FillState :=
  if inRangeIdx w h n then
    let nn := n.toNat
    if mask.testBit nn && !st.visited.testBit nn then
      { st with visited := st.visited ||| (1 <<< nn), stack := nn :: st.stack }
    else st
  else st

/-- One iteration of a flood-fill `while` loop: pop `curr`, fold its
coordinates into the bounding box, then push every in-range, masked,
unvisited neighbour candidate, marking it visited at push time. -/
def stepFill (w h mask : Nat) (nbrs : Nat → List Int) (s : FillState) : FillState :=
  match s.stack with
  | [] => s
  | curr :: rest =>
    let cx := curr % w
    let cy := curr / w
    let s1 : FillState :=
      { stack := rest, visited := s.visited,
        minX := min s.minX cx, maxX := max s.maxX cx,
        minY := min s.minY cy, maxY := max s.maxY cy,
        popped := curr :: s.popped }
    (nbrs curr).foldl (pushStep w h mask) s1

/-- The fuel-bounded flood-fill loop; it stops at an empty stack. -/
def runFill (w h mask : Nat) (nbrs : Nat → List Int) (fuel : Nat) :
    FillState → FillState :=
  Nat.rec (motive := fun _ => FillState → FillState)
    (fun s => s)
    (fun _ ih s => match s.stack with
      | [] => s
      | _ :: _ => ih (stepFill w h mask nbrs s))
    fuel

theorem runFill_zero (w h mask : Nat) (nbrs : Nat → List Int) (s : FillState) :
    runFill w h mask nbrs 0 s = s := rfl

theorem runFill_succ_nil (w h mask : Nat) (nbrs : Nat → List Int) (fuel : Nat)
    (s : FillState) (hs : s.stack = []) :
    runFill w h mask nbrs (fuel + 1) s = s := by
  show (match s.stack with
    | [] => s
    | _ :: _ => runFill w h mask nbrs fuel (stepFill w h mask nbrs s)) = s
  rw [hs]

theorem runFill_succ_cons (w h mask : Nat) (nbrs : Nat → List Int) (fuel : Nat)
    (s : FillState) (c : Nat) (l : List Nat) (hs : s.stack = c :: l) :
    runFill w h mask nbrs (fuel + 1) s
      = runFill w h mask nbrs fuel (stepFill w h mask nbrs s) := by
  show (match s.stack with
    | [] => s
    | _ :: _ => runFill w h mask nbrs fuel (stepFill w h mask nbrs s)) = _
  rw [hs]

/-- Fuel composition of the fill loop. -/
theorem runFill_add (w h mask : Nat) (nbrs : Nat → List Int) :
    ∀ (a b : Nat) (s : FillState),
      runFill w h mask nbrs (a + b) s
        = runFill w h mask nbrs b (runFill w h mask nbrs a s)
  | 0, b, s => by
    rw [Nat.zero_add, runFill_zero]
  | a + 1, b, s => by
    cases hs : s.stack with
    | nil =>
      rw [runFill_succ_nil w h mask nbrs a s hs]
      cases b with
      | zero => rw [Nat.add_zero, runFill_zero, runFill_succ_nil w h mask nbrs a s hs]
      | succ b' =>
        rw [show a + 1 + (b' + 1) = (a + 1 + b') + 1 from by omega]
        rw [runFill_succ_nil w h mask nbrs (a + 1 + b') s hs,
          runFill_succ_nil w h mask nbrs b' s hs]
    | cons c rest =>
      rw [show a + 1 + b = (a + b) + 1 from by omega]
      rw [runFill_succ_cons w h mask nbrs (a + b) s c rest hs,
        runFill_succ_cons w h mask nbrs a s c rest hs]
      exact runFill_add w h mask nbrs a b (stepFill w h mask nbrs s)

/-- The inline merge of a freshly labelled seed into the seed list: the new
seed is merged (bounding-box union) into the first existing seed whose
axis-aligned gaps are both below 30, else appended at the end. -/
def insertSeed : List Rect → Rect → List Rect
  | [], ns => [ns]
  | e :: rest, ns =>
    let xDist := max 0 (max (ns.minX - e.maxX) (e.minX - ns.maxX))
    let yDist := max 0 (max (ns.minY - e.maxY) (e.minY - ns.maxY))
    if xDist < 30 && yDist < 30 then
      { minX := min e.minX ns.minX, maxX := max e.maxX ns.maxX,
        minY := min e.minY ns.minY, maxY := max e.maxY ns.maxY } :: rest
    else e :: insertSeed rest ns

/-- State of the connected-component scan: the seed list built so far and
the scan-wide visited map. -/
structure ScanState where
  seeds : List Rect
  visited : Nat

/-- One index of the seed scan: at an unvisited foreground pixel of the
eroded map, flood-fill its 4-connected component (bounding box starts at the
pixel's own coordinates) and merge the resulting seed into the list. -/
def scanStep (w h eroded : Nat) (st : ScanState) (i : Nat) : ScanState :=
  if eroded.testBit i && !st.visited.testBit i then
    let s0 : FillState :=
      { stack := [i], visited := st.visited ||| (1 <<< i),
        minX := i % w, maxX := i % w, minY := i / w, maxY := i / w, popped := [] }
    let sf := runFill w h eroded (neighbors4 w) (w * h + 1) s0
    { seeds := insertSeed st.seeds
        { minX := (sf.minX : Int), maxX := (sf.maxX : Int),
          minY := (sf.minY : Int), maxY := (sf.maxY : Int) },
      visited := sf.visited }
  else st

/-- The merged seed list found by scanning the eroded map. -/
def mergedSeeds (img : Img) : List Rect :=
  (foldRangeSt (scanStep img.width img.height (erodedMap img))
    (img.width * img.height) 0 ⟨[], 0⟩).seeds

/-- Record of one region-growing attempt: the grown rectangle (`none` when
the defensive centroid check skipped the seed), the global claimed map
before and after, and the pixels the traversal popped. -/
structure GrowEntry where
  rect : Option Rect
  before : Nat
  after : Nat
  popped : List Nat
deriving DecidableEq

/-- The defensive skip test of the region grower: `binaryMap[startIdx] === 0`
at the seed's centroid `(floor((minX+maxX)/2), floor((minY+maxY)/2))`.  The
strict-equality comparison is true only for an in-range read of 0 (an
out-of-range read yields `undefined`, which is not `=== 0`). -/
def centroidBg (w h bm : Nat) (s : Rect) : Bool :=
  let cX := (s.minX + s.maxX).fdiv 2
  let cY := (s.minY + s.maxY).fdiv 2
  let start : Int := cY * (w : Int) + cX
  0 ≤ start && start < (w * h : Int) && !bm.testBit start.toNat

/-- Region growing for one merged seed: start from the integer midpoint of
its bounding box; skip if the original binary map reads 0 there; otherwise
flood-fill over the original map with 8-neighbour candidates and the global
claimed map, which is updated in place. -/
def growSeed (w h bm claimed : Nat) (s : Rect) : GrowEntry :=
  let cX := (s.minX + s.maxX).fdiv 2
  let cY := (s.minY + s.maxY).fdiv 2
  let start : Int := cY * (w : Int) + cX
  if centroidBg w h bm s then
    { rect := none, before := claimed, after := claimed, popped := [] }
  else
    let si := start.toNat
    let s0 : FillState :=
      { stack := [si], visited := claimed ||| (1 <<< si),
        minX := cX.toNat, maxX := cX.toNat, minY := cY.toNat, maxY := cY.toNat,
        popped := [] }
    let sf := runFill w h bm (neighbors8 w) (w * h + 1) s0
    { rect := some { minX := (sf.minX : Int), maxX := (sf.maxX : Int),
                     minY := (sf.minY : Int), maxY := (sf.maxY : Int) },
      before := claimed, after := sf.visited, popped := sf.popped }

/-- Region growing over the seed list in order, threading the global
claimed map. -/
def growAll (w h bm : Nat) : List Rect → Nat → List GrowEntry
  | [], _ => []
  | s :: rest, claimed =>
    let e := growSeed w h bm claimed s
    e :: growAll w h bm rest e.after

theorem growAll_nil (w h bm claimed : Nat) : growAll w h bm [] claimed = [] := rfl

theorem growAll_cons (w h bm claimed : Nat) (s : Rect) (rest : List Rect) :
    growAll w h bm (s :: rest) claimed
      = growSeed w h bm claimed s ::
        growAll w h bm rest (growSeed w h bm claimed s).after := rfl

/-- The fill state the region grower builds from a seed before the first
pop: the start pixel is the integer midpoint of the seed's bounding box. -/
def growStart (w claimed : Nat) (s : Rect) : FillState :=
  { stack := [((s.minY + s.maxY).fdiv 2 * (w : Int) + (s.minX + s.maxX).fdiv 2).toNat],
    visited := claimed |||
      (1 <<< ((s.minY + s.maxY).fdiv 2 * (w : Int) + (s.minX + s.maxX).fdiv 2).toNat),
    minX := ((s.minX + s.maxX).fdiv 2).toNat,
    maxX := ((s.minX + s.maxX).fdiv 2).toNat,
    minY := ((s.minY + s.maxY).fdiv 2).toNat,
    maxY := ((s.minY + s.maxY).fdiv 2).toNat,
    popped := [] }

/-- When the centroid check does not fire, the grower runs the 8-neighbour
fill from `growStart` and records its bounding box, visited map and pop
list. -/
theorem growSeed_else (w h bm claimed : Nat) (s : Rect)
    (hc : centroidBg w h bm s = false) :
    growSeed w h bm claimed s =
      { rect := some
          ⟨((runFill w h bm (neighbors8 w) (w * h + 1) (growStart w claimed s)).minX : Int),
           ((runFill w h bm (neighbors8 w) (w * h + 1) (growStart w claimed s)).maxX : Int),
           ((runFill w h bm (neighbors8 w) (w * h + 1) (growStart w claimed s)).minY : Int),
           ((runFill w h bm (neighbors8 w) (w * h + 1) (growStart w claimed s)).maxY : Int)⟩,
        before := claimed,
        after := (runFill w h bm (neighbors8 w) (w * h + 1) (growStart w claimed s)).visited,
        popped := (runFill w h bm (neighbors8 w) (w * h + 1) (growStart w claimed s)).popped }
    := by
  rw [growSeed, if_neg (by rw [hc]; exact Bool.false_ne_true)]
  rfl

/-- The per-seed grow records of `processStickerSheet`, in seed order. -/
def growEntries (img : Img) : List GrowEntry :=
  growAll img.width img.height (binaryMap img) (mergedSeeds img) 0

/-- The organically grown rectangles (skipped seeds contribute nothing). -/
def finalRects (img : Img) : List Rect :=
  (growEntries img).filterMap (fun e => e.rect)

/-- The sort comparator `(a.minY - b.minY) * 1000 + (a.minX - b.minX)`,
as the predicate "the comparator is non-positive". -/
def rectLe (a b : Rect) : Bool :=
  (a.minY - b.minY) * 1000 + (a.minX - b.minX) ≤ 0

/-- Stable insertion used to model `Array.prototype.sort` (specified to be
stable) with the comparator above. -/
def insertSorted (x : Rect) : List Rect → List Rect
  | [] => [x]
  | y :: ys => if rectLe x y then x :: y :: ys else y :: insertSorted x ys

/-- Stable sort of the grown rectangles by the comparator. -/
def sortRects : List Rect → List Rect
  | [] => []
  | x :: xs => insertSorted x (sortRects xs)

/-- The bounding boxes passed one by one to `extractStickerFromRect`
(the extraction loop copies each rect's fields unchanged). -/
def extractionRects (img : Img) : List Rect :=
  sortRects (finalRects img)

/-- `stickerPadding = 16` in `extractStickerFromRect`. -/
def stickerPadding : Nat := 16

/-- `strokeWidth = 6` in `extractStickerFromRect`. -/
def strokeWidth : Nat := 6

/-- Running bounding box of the second-pass content scan. -/
structure BBoxScan where
  minX : Nat
  maxX : Nat
  minY : Nat
  maxY : Nat
  found : Bool
deriving DecidableEq

/-- The crop pixel `(x, y)` of the crop at origin `(rX, rY)`: the source
pixel `(rX + x, rY + y)`. -/
def cropPix (src : Img) (rX rY x y : Nat) : RGBA :=
  src.pix ((rY + y) * src.width + (rX + x))

/-- The qualifying condition of the second-pass crop scan: the crop pixel
is non-transparent (`a > 20`) and not background at the strict
threshold 240. -/
def qualPix (src : Img) (rX rY x y : Nat) : Bool :=
  let p := cropPix src rX rY x y
  20 < p.a && !isBackground p.r p.g p.b p.a 240

/-- The running-box update performed at a qualifying pixel. -/
def bboxUpd (st : BBoxScan) (x y : Nat) : BBoxScan :=
  { minX := if x < st.minX then x else st.minX,
    maxX := if st.maxX < x then x else st.maxX,
    minY := if y < st.minY then y else st.minY,
    maxY := if st.maxY < y then y else st.maxY,
    found := true }

/-- The second-pass scan of the crop: fold the coordinates of every
qualifying crop pixel into the running box. -/
def extractScan (src : Img) (rX rY W H : Nat) : BBoxScan :=
  foldRangeSt (fun st y =>
    foldRangeSt (fun st x =>
      if qualPix src rX rY x y then bboxUpd st x y else st) W 0 st) H 0
    { minX := W, maxX := 0, minY := H, maxY := 0, found := false }

/-- The pure geometry of a produced sticker segment: the clamped crop
origin, the tight content box in crop coordinates, the reported original
position `(rawX + minX, rawY + minY)`, and the final composited canvas
dimensions. -/
structure Seg where
  rawX : Int
  rawY : Int
  cMinX : Nat
  cMaxX : Nat
  cMinY : Nat
  cMaxY : Nat
  originalX : Int
  originalY : Int
  width : Nat
  height : Nat
deriving DecidableEq, Repr

/-- The right edge, in source coordinates, of a segment's tight content
box. -/
def Seg.srcMaxX (s : Seg) : Int := s.rawX + (s.cMaxX : Int)

/-- The bottom edge, in source coordinates, of a segment's tight content
box. -/
def Seg.srcMaxY (s : Seg) : Int := s.rawY + (s.cMaxY : Int)

/-- `rawX = Math.max(0, rect.minX)`. -/
def rawX (rect : Rect) : Int := max 0 rect.minX

/-- `rawY = Math.max(0, rect.minY)`. -/
def rawY (rect : Rect) : Int := max 0 rect.minY

/-- `rawW = Math.min(source.width - rawX, rect.maxX - rect.minX)`. -/
def rawW (src : Img) (rect : Rect) : Int :=
  min ((src.width : Int) - rawX rect) (rect.maxX - rect.minX)

/-- `rawH = Math.min(source.height - rawY, rect.maxY - rect.minY)`. -/
def rawH (src : Img) (rect : Rect) : Int :=
  min ((src.height : Int) - rawY rect) (rect.maxY - rect.minY)

/-- `extractStickerFromRect`: clamp the rect into the source, fail on a
non-positive crop, scan the crop for content, fail when none is found, and
otherwise produce the segment geometry: content size plus `2*stickerPadding`
on the intermediate canvas plus `2*strokeWidth` on the final canvas. -/
def extractStickerFromRect (src : Img) (rect : Rect) : Option Seg :=
  if rawW src rect ≤ 0 || rawH src rect ≤ 0 then none
  else
    let sc := extractScan src (rawX rect).toNat (rawY rect).toNat
      (rawW src rect).toNat (rawH src rect).toNat
    if !sc.found then none
    else
      let contentW := sc.maxX - sc.minX + 1
      let contentH := sc.maxY - sc.minY + 1
      some { rawX := rawX rect, rawY := rawY rect,
             cMinX := sc.minX, cMaxX := sc.maxX, cMinY := sc.minY, cMaxY := sc.maxY,
             originalX := rawX rect + (sc.minX : Int),
             originalY := rawY rect + (sc.minY : Int),
             width := contentW + stickerPadding * 2 + strokeWidth * 2,
             height := contentH + stickerPadding * 2 + strokeWidth * 2 }

/-- `processStickerSheet` end to end: binary map, six erosion passes, seed
scan with inline merge, region growing under the global claimed map,
position sort, and per-rect extraction with failed extractions skipped. -/
def processStickerSheet (img : Img) : List Seg :=
  (extractionRects img).filterMap (extractStickerFromRect img)

/-!
## Generic lemmas about the mask-building folds
-/

theorem testBit_one_shiftLeft (i j : Nat) : (1 <<< i).testBit j = decide (i = j) := by
  rw [Nat.shiftLeft_eq, one_mul, Nat.testBit_two_pow]

theorem coords_mod (w y x : Nat) (hx : x < w) : (y * w + x) % w = x := by
  rw [Nat.mul_comm, Nat.mul_add_mod, Nat.mod_eq_of_lt hx]

theorem coords_div (w y x : Nat) (hx : x < w) : (y * w + x) / w = y := by
  rw [Nat.mul_comm, Nat.mul_add_div (by omega) y x, Nat.div_eq_of_lt hx, Nat.add_zero]

theorem coords_recompose (w j : Nat) : j / w * w + j % w = j := by
  rw [Nat.mul_comm]
  exact Nat.div_add_mod j w

theorem testBit_set (m i j : Nat) :
    (m ||| (1 <<< i)).testBit j = (m.testBit j || decide (i = j)) := by
  rw [Nat.testBit_or, testBit_one_shiftLeft]

/-- Characterisation of a fold that only ORs `wt i` into the accumulator
when `c i` holds: bit `j` of the result is bit `j` of the start value or a
bit contributed by some index of the range. -/
theorem foldOr_testBit (f : Nat → Nat → Nat) (c : Nat → Bool) (wt : Nat → Nat)
    (hf : ∀ a i, f a i = if c i then a ||| wt i else a) :
    ∀ (len lo acc j : Nat),
      ((foldRangeN f len lo acc).testBit j = true ↔
        acc.testBit j = true ∨
          ∃ i, lo ≤ i ∧ i < lo + len ∧ c i = true ∧ (wt i).testBit j = true)
  | 0, lo, acc, j => by
    rw [foldRangeN_zero]
    constructor
    · exact fun h => Or.inl h
    · rintro (h | ⟨i, h1, h2, _⟩)
      · exact h
      · omega
  | len + 1, lo, acc, j => by
    rw [foldRangeN_succ, foldOr_testBit f c wt hf len (lo + 1) (f acc lo) j, hf acc lo]
    constructor
    · rintro (h | ⟨i, h1, h2, h3, h4⟩)
      · by_cases hc : c lo = true
        · rw [if_pos hc, Nat.testBit_or, Bool.or_eq_true] at h
          rcases h with h | h
          · exact Or.inl h
          · exact Or.inr ⟨lo, Nat.le_refl lo, by omega, hc, h⟩
        · rw [if_neg hc] at h
          exact Or.inl h
      · exact Or.inr ⟨i, by omega, by omega, h3, h4⟩
    · rintro (h | ⟨i, h1, h2, h3, h4⟩)
      · left
        by_cases hc : c lo = true
        · rw [if_pos hc, Nat.testBit_or, h, Bool.true_or]
        · rw [if_neg hc]
          exact h
      · by_cases hi : i = lo
        · subst hi
          left
          rw [if_pos h3, Nat.testBit_or, h4, Bool.or_true]
        · exact Or.inr ⟨i, by omega, by omega, h3, h4⟩

/-- Bit `j` of the binary map: the index is in range and the pixel is not
background at threshold 240. -/
theorem binaryMap_testBit (img : Img) (j : Nat) :
    ((binaryMap img).testBit j = true ↔
      j < img.width * img.height ∧
        isBackground (img.pix j).r (img.pix j).g (img.pix j).b (img.pix j).a 240 = false) := by
  rw [show binaryMap img
      = foldRangeN
          (fun acc i =>
            let p := img.pix i
            if !isBackground p.r p.g p.b p.a 240 then acc ||| (1 <<< i) else acc)
          (img.width * img.height) 0 0 from rfl]
  rw [foldOr_testBit _
    (fun i => !isBackground (img.pix i).r (img.pix i).g (img.pix i).b (img.pix i).a 240)
    (fun i => 1 <<< i) (fun _ _ => rfl) (img.width * img.height) 0 0 j]
  constructor
  · rintro (h0 | ⟨i, _, hlt, hc, hbit⟩)
    · rw [Nat.zero_testBit] at h0
      exact absurd h0 (by simp)
    · rw [testBit_one_shiftLeft] at hbit
      have : i = j := by
        have := of_decide_eq_true hbit
        exact this
      subst this
      exact ⟨by omega, by rwa [Bool.not_eq_true'] at hc⟩
  · rintro ⟨hj, hbg⟩
    exact Or.inr ⟨j, Nat.zero_le j, by omega, by rw [hbg]; rfl,
      by rw [testBit_one_shiftLeft]; exact decide_eq_true rfl⟩

/-- The survival condition of one erosion pass at linear index `idx`. -/
def eroCond (w m idx : Nat) : Bool :=
  m.testBit idx &&
    !(!m.testBit (idx - 1) || !m.testBit (idx + 1) ||
      !m.testBit (idx - w) || !m.testBit (idx + w))

theorem eroRow_testBit (w m y : Nat) (len lo acc j : Nat) :
    ((foldRangeN (fun acc x =>
        let idx := y * w + x
        if m.testBit idx then
          if !m.testBit (idx - 1) || !m.testBit (idx + 1) ||
             !m.testBit (idx - w) || !m.testBit (idx + w) then acc
          else acc ||| (1 <<< idx)
        else acc) len lo acc).testBit j = true ↔
      acc.testBit j = true ∨
        ∃ x, lo ≤ x ∧ x < lo + len ∧ eroCond w m (y * w + x) = true ∧
          (1 <<< (y * w + x)).testBit j = true) := by
  refine foldOr_testBit _ (fun x => eroCond w m (y * w + x)) (fun x => 1 <<< (y * w + x))
    (fun a x => ?_) len lo acc j
  show (if m.testBit (y * w + x) then
      if !m.testBit (y * w + x - 1) || !m.testBit (y * w + x + 1) ||
         !m.testBit (y * w + x - w) || !m.testBit (y * w + x + w) then a
      else a ||| (1 <<< (y * w + x))
    else a) = _
  rcases hm : m.testBit (y * w + x) with _ | _ <;>
    rcases hb : (!m.testBit (y * w + x - 1) || !m.testBit (y * w + x + 1) ||
        !m.testBit (y * w + x - w) || !m.testBit (y * w + x + w)) with _ | _ <;>
    simp [eroCond, hm, hb]

theorem erodePass_rows_testBit (w h m : Nat) :
    ∀ (hlen ylo acc j : Nat),
      ((foldRangeN (fun acc y =>
          foldRangeN (fun acc x =>
            let idx := y * w + x
            if m.testBit idx then
              if !m.testBit (idx - 1) || !m.testBit (idx + 1) ||
                 !m.testBit (idx - w) || !m.testBit (idx + w) then acc
              else acc ||| (1 <<< idx)
            else acc) (w - 2) 1 acc) hlen ylo acc).testBit j = true ↔
        acc.testBit j = true ∨
          ∃ y x, ylo ≤ y ∧ y < ylo + hlen ∧ 1 ≤ x ∧ x < 1 + (w - 2) ∧
            eroCond w m (y * w + x) = true ∧ (1 <<< (y * w + x)).testBit j = true)
  | 0, ylo, acc, j => by
    rw [foldRangeN_zero]
    constructor
    · exact fun h => Or.inl h
    · rintro (h | ⟨y, x, h1, h2, _⟩)
      · exact h
      · omega
  | hlen + 1, ylo, acc, j => by
    rw [foldRangeN_succ, erodePass_rows_testBit w h m hlen (ylo + 1) _ j]
    rw [eroRow_testBit w m ylo (w - 2) 1 acc j]
    constructor
    · rintro ((h | ⟨x, hx1, hx2, hx3, hx4⟩) | ⟨y, x, h1, h2, h3, h4, h5, h6⟩)
      · exact Or.inl h
      · exact Or.inr ⟨ylo, x, Nat.le_refl ylo, by omega, hx1, hx2, hx3, hx4⟩
      · exact Or.inr ⟨y, x, by omega, by omega, h3, h4, h5, h6⟩
    · rintro (h | ⟨y, x, h1, h2, h3, h4, h5, h6⟩)
      · exact Or.inl (Or.inl h)
      · by_cases hy : y = ylo
        · subst hy
          exact Or.inl (Or.inr ⟨x, h3, h4, h5, h6⟩)
        · exact Or.inr ⟨y, x, by omega, by omega, h3, h4, h5, h6⟩

/-- Full characterisation of one erosion pass: bit `j` of the result is set
iff `j` is an interior index (column and row strictly between the borders)
whose survival condition holds. -/
theorem erodePass_testBit (w h m j : Nat) :
    ((erodePass w h m).testBit j = true ↔
      1 ≤ j % w ∧ j % w ≤ w - 2 ∧ 1 ≤ j / w ∧ j / w ≤ h - 2 ∧
        eroCond w m j = true) := by
  rw [show erodePass w h m
      = foldRangeN (fun acc y =>
          foldRangeN (fun acc x =>
            let idx := y * w + x
            if m.testBit idx then
              if !m.testBit (idx - 1) || !m.testBit (idx + 1) ||
                 !m.testBit (idx - w) || !m.testBit (idx + w) then acc
              else acc ||| (1 <<< idx)
            else acc) (w - 2) 1 acc) (h - 2) 1 0 from rfl]
  rw [erodePass_rows_testBit w h m (h - 2) 1 0 j]
  constructor
  · rintro (h0 | ⟨y, x, h1, h2, h3, h4, h5, h6⟩)
    · rw [Nat.zero_testBit] at h0
      exact absurd h0 (by simp)
    · rw [testBit_one_shiftLeft] at h6
      have hyx : y * w + x = j := of_decide_eq_true h6
      have hw3 : 3 ≤ w := by omega
      have hxw : x < w := by omega
      have hmod : j % w = x := by rw [← hyx, coords_mod w y x hxw]
      have hdiv : j / w = y := by rw [← hyx, coords_div w y x hxw]
      rw [hmod, hdiv]
      rw [hyx] at h5
      exact ⟨by omega, by omega, by omega, by omega, h5⟩
  · rintro ⟨h1, h2, h3, h4, h5⟩
    have hw3 : 3 ≤ w := by omega
    have hj : j / w * w + j % w = j := coords_recompose w j
    refine Or.inr ⟨j / w, j % w, h3, by omega, h1, by omega, ?_, ?_⟩
    · rw [hj]
      exact h5
    · rw [hj, testBit_one_shiftLeft]
      exact decide_eq_true rfl

/-- Bit `j` set after an erosion pass implies it was set before. -/
theorem erodePass_subset (w h m j : Nat)
    (hj : (erodePass w h m).testBit j = true) : m.testBit j = true := by
  rcases (erodePass_testBit w h m j).mp hj with ⟨_, _, _, _, h5⟩
  rw [eroCond, Bool.and_eq_true] at h5
  exact h5.1

theorem erodeN_subset (w h : Nat) :
    ∀ (k m j : Nat), ((erodeN w h k m).testBit j = true) → m.testBit j = true
  | 0, _, _, hj => hj
  | k + 1, m, j, hj =>
    erodePass_subset w h m j (erodeN_subset w h k (erodePass w h m) j hj)

/-!
## Claim C4 — erosion-pass local rule
-/

/-- Claim C4, counterexample: on the all-foreground 3x3 mask (511), the
corner pixel (0,0) is not left unchanged by an erosion pass — the pass
zeroes every edge pixel because the scan never writes them into the
zero-initialised temp map. -/
theorem c4_counterexample : (erodePass 3 3 511).testBit 0 ≠ (511 : Nat).testBit 0 := by
  decide

/-- Claim C4, amended: an erosion pass maps an interior pixel to foreground
iff it and all four of its neighbours were foreground (so an interior
foreground pixel becomes background iff some 4-neighbour was background);
edge pixels are not left unchanged but are set to background. -/
theorem c4_amended :
    (∀ w h m x y : Nat, 1 ≤ x → x ≤ w - 2 → 1 ≤ y → y ≤ h - 2 →
      ((erodePass w h m).testBit (y * w + x) = true ↔
        (m.testBit (y * w + x) = true ∧ m.testBit (y * w + x - 1) = true ∧
         m.testBit (y * w + x + 1) = true ∧ m.testBit (y * w + x - w) = true ∧
         m.testBit (y * w + x + w) = true))) ∧
    (∀ w h m j : Nat, (j % w = 0 ∨ j % w = w - 1 ∨ j / w = 0 ∨ j / w = h - 1) →
      (erodePass w h m).testBit j = false) := by
  constructor
  · intro w h m x y hx1 hx2 hy1 hy2
    have hw3 : 3 ≤ w := by omega
    have hxw : x < w := by omega
    rw [erodePass_testBit, coords_mod w y x hxw, coords_div w y x hxw]
    constructor
    · rintro ⟨_, _, _, _, h5⟩
      rw [eroCond] at h5
      simp only [Bool.and_eq_true, Bool.not_eq_true', Bool.or_eq_false_iff] at h5
      refine ⟨h5.1, ?_, ?_, ?_, ?_⟩
      · have := h5.2.1.1.1
        revert this
        cases m.testBit (y * w + x - 1) <;> simp
      · have := h5.2.1.1.2
        revert this
        cases m.testBit (y * w + x + 1) <;> simp
      · have := h5.2.1.2
        revert this
        cases m.testBit (y * w + x - w) <;> simp
      · have := h5.2.2
        revert this
        cases m.testBit (y * w + x + w) <;> simp
    · rintro ⟨h0, h1, h2, h3, h4⟩
      refine ⟨hx1, by omega, hy1, by omega, ?_⟩
      rw [eroCond, h0, h1, h2, h3, h4]
      rfl
  · intro w h m j hj
    cases he : (erodePass w h m).testBit j with
    | false => rfl
    | true =>
      rcases (erodePass_testBit w h m j).mp he with ⟨h1, h2, h3, h4, _⟩
      have hw3 : 3 ≤ w := by omega
      have hh3 : 3 ≤ h := by omega
      omega

/-- Claim C4, witness: the amended rule applied on the all-foreground 4x4
mask, at interior pixel (1,1) and at edge pixel (0,0). -/
theorem c4_amended_witness :
    (((erodePass 4 4 65535).testBit (1 * 4 + 1) = true ↔
      ((65535 : Nat).testBit (1 * 4 + 1) = true ∧
       (65535 : Nat).testBit (1 * 4 + 1 - 1) = true ∧
       (65535 : Nat).testBit (1 * 4 + 1 + 1) = true ∧
       (65535 : Nat).testBit (1 * 4 + 1 - 4) = true ∧
       (65535 : Nat).testBit (1 * 4 + 1 + 4) = true)) ∧
     (erodePass 4 4 65535).testBit 0 = false) :=
  ⟨c4_amended.1 4 4 65535 1 1 (by decide) (by decide) (by decide) (by decide),
   c4_amended.2 4 4 65535 0 (Or.inl (by decide))⟩

/-!
## Claim C9 — erosion is monotone decreasing
-/

/-- Claim C9: every erosion pass only clears bits (the survival condition
requires the pixel itself to be foreground), so each pass's foreground set
is a subset of the previous one; consequently the fully eroded working map
is a subset of the original binary map. -/
theorem c9_erosion_monotone :
    (∀ w h m j : Nat, (erodePass w h m).testBit j = true → m.testBit j = true) ∧
    (∀ (img : Img) (j : Nat),
      (erodedMap img).testBit j = true → (binaryMap img).testBit j = true) :=
  ⟨fun w h m j hj => erodePass_subset w h m j hj,
   fun img j hj =>
    erodeN_subset img.width img.height erosionPasses (binaryMap img) j hj⟩

/-- Claim C9, witness: on the all-foreground 4x4 mask, pixel (1,1) survives
one pass, and monotonicity recovers that it was set before the pass. -/
theorem c9_witness : (65535 : Nat).testBit 5 = true :=
  c9_erosion_monotone.1 4 4 65535 5 (by decide)

/-!
## Claim C10 — flood-fill connectivity wraps across row boundaries
-/

/-- Claim C10: for a pixel in column 0 of row `y > 0` (linear index `y*w`),
the candidate `curr - 1` is in the flood fills' neighbour list, passes their
only filter `0 ≤ n < w*h`, and is the pixel in column `w-1` of row `y-1`:
index-adjacency wraps across row boundaries.  Concretely, scanning a 6x4
mask whose only set pixels are (5,1) and (0,2) labels them as a single
component with bounding box (0,1)-(5,2). -/
theorem c10_wrap_adjacency :
    (∀ w h y : Nat, 1 ≤ y → 2 ≤ w → y * w < w * h →
      ((y * w : Int) - 1) ∈ neighbors4 w (y * w) ∧
      (0 ≤ (y * w : Int) - 1 ∧ (y * w : Int) - 1 < ((w * h : Nat) : Int)) ∧
      (y * w - 1) % w = w - 1 ∧ (y * w - 1) / w = y - 1) ∧
    ((foldRangeSt (scanStep 6 4 ((1 <<< 11) + (1 <<< 12))) (6 * 4) 0 ⟨[], 0⟩).seeds
      = [⟨0, 5, 1, 2⟩]) := by
  constructor
  · intro w h y hy hw hlt
    have hyw : 0 < y * w := Nat.mul_pos (by omega) (by omega)
    have hsplit : y * w - 1 = (y - 1) * w + (w - 1) := by
      rcases y with _ | y'
      · omega
      · rw [Nat.succ_mul, Nat.succ_sub_one]
        omega
    refine ⟨?_, ⟨by omega, by omega⟩, ?_, ?_⟩
    · simp [neighbors4]
    · rw [hsplit, coords_mod w (y - 1) (w - 1) (by omega)]
    · rw [hsplit, coords_div w (y - 1) (w - 1) (by omega)]
  · decide

/-- Claim C10, witness: the wrap fact applied at `w = 6`, `y = 2` (pixel
(0,2), linear index 12): index 11 is accepted as a neighbour and is pixel
(5,1). -/
theorem c10_witness :
    ((2 * 6 : Int) - 1) ∈ neighbors4 6 (2 * 6) ∧
    (0 ≤ (2 * 6 : Int) - 1 ∧ (2 * 6 : Int) - 1 < ((6 * 4 : Nat) : Int)) ∧
    (2 * 6 - 1) % 6 = 6 - 1 ∧ (2 * 6 - 1) / 6 = 2 - 1 :=
  c10_wrap_adjacency.1 6 4 2 (by decide) (by decide) (by decide)

/-!
## The crop scan's `found` flag
-/

theorem scanRow_found (src : Img) (rX rY y : Nat) :
    ∀ (len lo : Nat) (st : BBoxScan),
      ((foldRangeSt (fun st x => if qualPix src rX rY x y then bboxUpd st x y else st)
          len lo st).found = true ↔
        st.found = true ∨ ∃ x, lo ≤ x ∧ x < lo + len ∧ qualPix src rX rY x y = true)
  | 0, lo, st => by
    rw [foldRangeSt_zero]
    constructor
    · exact Or.inl
    · rintro (h | ⟨x, h1, h2, _⟩)
      · exact h
      · omega
  | len + 1, lo, st => by
    rw [foldRangeSt_succ, scanRow_found src rX rY y len (lo + 1) _]
    by_cases hq : qualPix src rX rY lo y = true
    · rw [if_pos hq]
      constructor
      · intro _
        exact Or.inr ⟨lo, Nat.le_refl lo, by omega, hq⟩
      · intro _
        left
        rfl
    · rw [if_neg hq]
      constructor
      · rintro (h | ⟨x, h1, h2, h3⟩)
        · exact Or.inl h
        · exact Or.inr ⟨x, by omega, by omega, h3⟩
      · rintro (h | ⟨x, h1, h2, h3⟩)
        · exact Or.inl h
        · by_cases hx : x = lo
          · subst hx
            exact absurd h3 hq
          · exact Or.inr ⟨x, by omega, by omega, h3⟩

theorem scanRows_found (src : Img) (rX rY W : Nat) :
    ∀ (hlen ylo : Nat) (st : BBoxScan),
      ((foldRangeSt (fun st y =>
          foldRangeSt (fun st x => if qualPix src rX rY x y then bboxUpd st x y else st)
            W 0 st) hlen ylo st).found = true ↔
        st.found = true ∨ ∃ y x, ylo ≤ y ∧ y < ylo + hlen ∧ x < W ∧
          qualPix src rX rY x y = true)
  | 0, ylo, st => by
    rw [foldRangeSt_zero]
    constructor
    · exact Or.inl
    · rintro (h | ⟨y, x, h1, h2, _⟩)
      · exact h
      · omega
  | hlen + 1, ylo, st => by
    rw [foldRangeSt_succ, scanRows_found src rX rY W hlen (ylo + 1) _]
    rw [scanRow_found src rX rY ylo W 0 st]
    constructor
    · rintro ((h | ⟨x, _, hx2, hx3⟩) | ⟨y, x, h1, h2, h3, h4⟩)
      · exact Or.inl h
      · exact Or.inr ⟨ylo, x, Nat.le_refl ylo, by omega, by omega, hx3⟩
      · exact Or.inr ⟨y, x, by omega, by omega, h3, h4⟩
    · rintro (h | ⟨y, x, h1, h2, h3, h4⟩)
      · exact Or.inl (Or.inl h)
      · by_cases hy : y = ylo
        · subst hy
          exact Or.inl (Or.inr ⟨x, Nat.zero_le x, by omega, h4⟩)
        · exact Or.inr ⟨y, x, by omega, by omega, h3, h4⟩

/-- The crop scan finds content iff some crop pixel qualifies. -/
theorem extractScan_found (src : Img) (rX rY W H : Nat) :
    ((extractScan src rX rY W H).found = true ↔
      ∃ y x, y < H ∧ x < W ∧ qualPix src rX rY x y = true) := by
  rw [show extractScan src rX rY W H
      = foldRangeSt (fun st y =>
          foldRangeSt (fun st x => if qualPix src rX rY x y then bboxUpd st x y else st)
            W 0 st) H 0 ⟨W, 0, H, 0, false⟩ from rfl]
  rw [scanRows_found src rX rY W H 0 ⟨W, 0, H, 0, false⟩]
  constructor
  · rintro (h | ⟨y, x, _, h2, h3, h4⟩)
    · exact absurd h (by simp)
    · exact ⟨y, x, by omega, h3, h4⟩
  · rintro ⟨y, x, h1, h2, h3⟩
    exact Or.inr ⟨y, x, Nat.zero_le y, by omega, h2, h3⟩

/-!
## Claim C6 — round-trip padding invariant
-/

/-- Claim C6: every produced segment's dimensions are the tight content box
dimensions plus `2 * stickerPadding` plus `2 * strokeWidth` exactly, with
`stickerPadding = 16` and `strokeWidth = 6`. -/
theorem c6_padding_invariant (src : Img) (rect : Rect) (seg : Seg)
    (h : extractStickerFromRect src rect = some seg) :
    seg.width = (seg.cMaxX - seg.cMinX + 1) + 2 * stickerPadding + 2 * strokeWidth ∧
    seg.height = (seg.cMaxY - seg.cMinY + 1) + 2 * stickerPadding + 2 * strokeWidth ∧
    stickerPadding = 16 ∧ strokeWidth = 6 := by
  rw [extractStickerFromRect] at h
  by_cases h1 : (decide (rawW src rect ≤ 0) || decide (rawH src rect ≤ 0)) = true
  · rw [if_pos h1] at h
    exact absurd h (by simp)
  · rw [if_neg h1] at h
    by_cases h2 : (!(extractScan src (rawX rect).toNat (rawY rect).toNat
        (rawW src rect).toNat (rawH src rect).toNat).found) = true
    · rw [if_pos h2] at h
      exact absurd h (by simp)
    · rw [if_neg h2] at h
      injection h with h
      subst h
      refine ⟨?_, ?_, rfl, rfl⟩ <;> simp [stickerPadding, strokeWidth]

/-- The image used by the extraction witnesses: 10x10, white except for a
black square on (4,4)-(6,6). -/
def img10 : Img where
  width := 10
  height := 10
  pix := fun i =>
    if 4 ≤ i % 10 ∧ i % 10 ≤ 6 ∧ 4 ≤ i / 10 ∧ i / 10 ≤ 6 then ⟨0, 0, 0, 255⟩
    else ⟨255, 255, 255, 255⟩

/-- The segment extracted from `img10` with rect (3,3)-(8,8). -/
def seg10 : Seg :=
  ⟨3, 3, 1, 3, 1, 3, 4, 4, 47, 47⟩

/-- Claim C6, witness: the padding invariant at a concrete extraction. -/
theorem c6_witness :
    seg10.width = (seg10.cMaxX - seg10.cMinX + 1) + 2 * stickerPadding + 2 * strokeWidth ∧
    seg10.height = (seg10.cMaxY - seg10.cMinY + 1) + 2 * stickerPadding + 2 * strokeWidth ∧
    stickerPadding = 16 ∧ strokeWidth = 6 :=
  c6_padding_invariant img10 ⟨3, 8, 3, 8⟩ seg10 (by decide)

/-!
## Claim C7 — extraction failure conditions
-/

/-- Failure characterisation of `extractStickerFromRect`. -/
theorem extract_none_iff (src : Img) (rect : Rect) :
    extractStickerFromRect src rect = none ↔
      rawW src rect ≤ 0 ∨ rawH src rect ≤ 0 ∨
      ∀ x y : Nat, x < (rawW src rect).toNat → y < (rawH src rect).toNat →
        qualPix src (rawX rect).toNat (rawY rect).toNat x y = false := by
  rw [extractStickerFromRect]
  by_cases h1 : (decide (rawW src rect ≤ 0) || decide (rawH src rect ≤ 0)) = true
  · rw [if_pos h1]
    simp only [Bool.or_eq_true, decide_eq_true_eq] at h1
    constructor
    · intro _
      rcases h1 with h | h
      · exact Or.inl h
      · exact Or.inr (Or.inl h)
    · intro _
      rfl
  · rw [if_neg h1]
    simp only [Bool.or_eq_true, decide_eq_true_eq, not_or] at h1
    by_cases h2 : (!(extractScan src (rawX rect).toNat (rawY rect).toNat
        (rawW src rect).toNat (rawH src rect).toNat).found) = true
    · rw [if_pos h2]
      rw [Bool.not_eq_true'] at h2
      constructor
      · intro _
        refine Or.inr (Or.inr fun x y hx hy => ?_)
        cases hq : qualPix src (rawX rect).toNat (rawY rect).toNat x y with
        | false => rfl
        | true =>
          have hfound := (extractScan_found src (rawX rect).toNat (rawY rect).toNat
            (rawW src rect).toNat (rawH src rect).toNat).mpr ⟨y, x, hy, hx, hq⟩
          rw [h2] at hfound
          exact absurd hfound (by simp)
      · intro _
        rfl
    · rw [if_neg h2]
      have hf : (extractScan src (rawX rect).toNat (rawY rect).toNat
          (rawW src rect).toNat (rawH src rect).toNat).found = true := by
        cases hfound : (extractScan src (rawX rect).toNat (rawY rect).toNat
            (rawW src rect).toNat (rawH src rect).toNat).found with
        | false => exact absurd (by rw [hfound]; rfl) h2
        | true => rfl
      constructor
      · intro hsome
        exact absurd hsome (by simp)
      · rintro (h | h | hall)
        · exact absurd h h1.1
        · exact absurd h h1.2
        · rcases (extractScan_found src (rawX rect).toNat (rawY rect).toNat
            (rawW src rect).toNat (rawH src rect).toNat).mp hf with ⟨y, x, hy, hx, hq⟩
          rw [hall x y hx hy] at hq
          exact absurd hq (by simp)

/-- Claim C7: `extractStickerFromRect` produces no segment exactly when the
clamped crop has non-positive width or height, or no crop pixel is both
non-transparent and non-background at the strict threshold; in particular a
rect whose whole crop is background (uniform background region) yields no
segment. -/
theorem c7_extract_none_cases :
    (∀ (src : Img) (rect : Rect),
      (extractStickerFromRect src rect = none ↔
        rawW src rect ≤ 0 ∨ rawH src rect ≤ 0 ∨
        ∀ x y : Nat, x < (rawW src rect).toNat → y < (rawH src rect).toNat →
          qualPix src (rawX rect).toNat (rawY rect).toNat x y = false)) ∧
    (∀ (src : Img) (rect : Rect),
      (∀ x y : Nat, x < (rawW src rect).toNat → y < (rawH src rect).toNat →
        isBackground (cropPix src (rawX rect).toNat (rawY rect).toNat x y).r
          (cropPix src (rawX rect).toNat (rawY rect).toNat x y).g
          (cropPix src (rawX rect).toNat (rawY rect).toNat x y).b
          (cropPix src (rawX rect).toNat (rawY rect).toNat x y).a 240 = true) →
      extractStickerFromRect src rect = none) := by
  refine ⟨fun src rect => extract_none_iff src rect, fun src rect hbg => ?_⟩
  refine (extract_none_iff src rect).mpr (Or.inr (Or.inr fun x y hx hy => ?_))
  rw [qualPix]
  rw [hbg x y hx hy]
  simp

/-- The all-white 10x10 image. -/
def whiteImg : Img where
  width := 10
  height := 10
  pix := fun _ => ⟨255, 255, 255, 255⟩

/-- Claim C7, witness: a rect fully inside the uniform white image yields
no segment. -/
theorem c7_witness : extractStickerFromRect whiteImg ⟨2, 7, 2, 7⟩ = none :=
  c7_extract_none_cases.2 whiteImg ⟨2, 7, 2, 7⟩ (fun _ _ _ _ => rfl)

/-!
## Claim C8 — all-background image yields no segments
-/

theorem erodePass_zero (w h : Nat) : erodePass w h 0 = 0 := by
  refine Nat.eq_of_testBit_eq fun j => ?_
  rw [Nat.zero_testBit]
  cases hb : (erodePass w h 0).testBit j with
  | false => rfl
  | true =>
    rcases (erodePass_testBit w h 0 j).mp hb with ⟨_, _, _, _, h5⟩
    rw [eroCond, Nat.zero_testBit] at h5
    exact absurd h5 (by simp)

theorem erodeN_zero (w h : Nat) : ∀ k : Nat, erodeN w h k 0 = 0
  | 0 => rfl
  | k + 1 => by
    show erodeN w h k (erodePass w h 0) = 0
    rw [erodePass_zero]
    exact erodeN_zero w h k

theorem scanStep_zero (w h : Nat) (st : ScanState) (i : Nat) :
    scanStep w h 0 st i = st := by
  rw [scanStep]
  simp

theorem foldRangeSt_id {σ : Type} (f : σ → Nat → σ) (hid : ∀ st i, f st i = st) :
    ∀ (len lo : Nat) (st : σ), foldRangeSt f len lo st = st
  | 0, _, _ => rfl
  | len + 1, lo, st => by
    rw [foldRangeSt_succ, hid st lo, foldRangeSt_id f hid len (lo + 1) st]

/-- Claim C8: if every in-range pixel is background at the mask threshold
240 (transparent, or all channels above the threshold), the binary mask is
all zero, the seed scan finds nothing, and `processStickerSheet` returns the
empty segment list. -/
theorem c8_all_background (img : Img)
    (hbg : ∀ i : Nat, i < img.width * img.height →
      isBackground (img.pix i).r (img.pix i).g (img.pix i).b (img.pix i).a 240 = true) :
    binaryMap img = 0 ∧ mergedSeeds img = [] ∧ processStickerSheet img = [] := by
  have hbm : binaryMap img = 0 := by
    refine Nat.eq_of_testBit_eq fun j => ?_
    rw [Nat.zero_testBit]
    cases hb : (binaryMap img).testBit j with
    | false => rfl
    | true =>
      rcases (binaryMap_testBit img j).mp hb with ⟨hj, hf⟩
      rw [hbg j hj] at hf
      exact absurd hf (by simp)
  have herode : erodedMap img = 0 := by
    rw [erodedMap, hbm, erodeN_zero]
  have hseeds : mergedSeeds img = [] := by
    rw [mergedSeeds, herode,
      foldRangeSt_id _ (scanStep_zero img.width img.height)]
  refine ⟨hbm, hseeds, ?_⟩
  rw [processStickerSheet, extractionRects, finalRects, growEntries, hseeds]
  rfl

/-- Claim C8, witness: the all-white 10x10 image produces the empty list. -/
theorem c8_witness :
    binaryMap whiteImg = 0 ∧ mergedSeeds whiteImg = [] ∧
      processStickerSheet whiteImg = [] :=
  c8_all_background whiteImg (fun _ _ => rfl)

/-!
## Claim C5 — the defensive centroid skip
-/

/-- The foreground bitmask of the ring test image: a square ring on the
30x30 canvas, outline (1,1)-(28,28), with a 2x2 hole (14,14)-(15,15) at its
centre.  The ring is thick enough (13px) to survive six erosion passes as a
single connected component whose bounding-box midpoint falls inside the
hole. -/
def rbm0 : Nat :=
  0x1ffffffe7ffffff9ffffffe7ffffff9ffffffe7ffffff9ffffffe7ffffff9ffffffe7ffffff9ffffffe7ffffff9ffffffe7ffcfff9fff3ffe7ffffff9ffffffe7ffffff9ffffffe7ffffff9ffffffe7ffffff9ffffffe7ffffff9ffffffe7ffffff9ffffffe7ffffff80000000

/-- The ring test image: black exactly on the bits of `rbm0`. -/
def ringImg : Img where
  width := 30
  height := 30
  pix := fun i => if rbm0.testBit i then ⟨0, 0, 0, 255⟩ else ⟨255, 255, 255, 255⟩

/-!
### Staged evaluation of the ring pipeline

Each stage of the pipeline is recorded as an explicit numeral so that every
kernel evaluation below starts from a literal mask and stays small.
-/

/-- The ring mask after 1 erosion pass. -/
def rbm1 : Nat :=
  0x3ffffff0ffffffc3ffffff0ffffffc3ffffff0ffffffc3ffffff0ffffffc3ffffff0ffffffc3ffffff0fff3ffc3ff87ff0ffe1ffc3ffcfff0ffffffc3ffffff0ffffffc3ffffff0ffffffc3ffffff0ffffffc3ffffff0ffffffc3ffffff0ffffffc000000000000000

/-- The ring mask after 2 erosion passes. -/
def rbm2 : Nat :=
  0x7fffff81fffffe07fffff81fffffe07fffff81fffffe07fffff81fffffe07fffff81ffcffe07fe1ff81ff03fe07fc0ff81ff87fe07ff3ff81fffffe07fffff81fffffe07fffff81fffffe07fffff81fffffe07fffff81fffffe00000000000000000000000

/-- The ring mask after 3 erosion passes. -/
def rbm3 : Nat :=
  0xfffffc03fffff00fffffc03fffff00fffffc03fffff00fffffc03ff3ff00ff87fc03fc0ff00fe01fc03f807f00ff03fc03fe1ff00ffcffc03fffff00fffffc03fffff00fffffc03fffff00fffffc03fffff0000000000000000000000000000000

/-- The ring mask after 4 erosion passes. -/
def rbm4 : Nat :=
  0x1ffffe007ffff801ffffe007ffff801ffffe007fcff801fe1fe007f03f801f807e007c00f801f003e007e01f801fc0fe007f87f801ff3fe007ffff801ffffe007ffff801ffffe007ffff800000000000000000000000000000000000000

/-- The ring mask after 5 erosion passes. -/
def rbm5 : Nat :=
  0x3ffff000ffffc003ffff000ff3fc003f87f000fc0fc003e01f000f003c0038007000e001c003c00f000f807c003f03f000fe1fc003fcff000ffffc003ffff000ffffc0000000000000000000000000000000000000000000000

/-- The ring mask after 6 erosion passes. -/
def rbm6 : Nat :=
  0x7fff8001fcfe0007e1f8001f03e00078078001c00e00060018001000200040008001800600070038001e01e0007c0f8001f87e0007f3f8001fffe000000000000000000000000000000000000000000000000000000

theorem rbm0_eval : binaryMap ringImg = rbm0 := by
  apply Nat.eq_of_testBit_eq
  intro j
  cases hb : (rbm0).testBit j with
  | true =>
    have hlt : j < 900 := by
      by_contra hge
      push_neg at hge
      rw [Nat.testBit_eq_false_of_lt (lt_of_lt_of_le (by decide! : rbm0 < 2 ^ 900)
        (Nat.pow_le_pow_right (by decide) hge))] at hb
      exact Bool.noConfusion hb
    refine (binaryMap_testBit ringImg j).mpr ⟨hlt, ?_⟩
    rw [show ringImg.pix j
        = if (rbm0).testBit j then ⟨0, 0, 0, 255⟩ else ⟨255, 255, 255, 255⟩ from rfl, hb]
    rfl
  | false =>
    cases hB : (binaryMap ringImg).testBit j with
    | false => rfl
    | true =>
      obtain ⟨hj, hbg⟩ := (binaryMap_testBit ringImg j).mp hB
      rw [show ringImg.pix j
          = if (rbm0).testBit j then ⟨0, 0, 0, 255⟩ else ⟨255, 255, 255, 255⟩ from rfl,
        hb] at hbg
      exact absurd hbg (by decide)

theorem rpass1 : erodePass 30 30 rbm0 = rbm1 := by
  decide!

theorem rpass2 : erodePass 30 30 rbm1 = rbm2 := by
  decide!

theorem rpass3 : erodePass 30 30 rbm2 = rbm3 := by
  decide!

theorem rpass4 : erodePass 30 30 rbm3 = rbm4 := by
  decide!

theorem rpass5 : erodePass 30 30 rbm4 = rbm5 := by
  decide!

theorem rpass6 : erodePass 30 30 rbm5 = rbm6 := by
  decide!

theorem reroded_eval : erodedMap ringImg = rbm6 := by
  rw [erodedMap, rbm0_eval]
  show erodePass 30 30 (erodePass 30 30 (erodePass 30 30 (erodePass 30 30
    (erodePass 30 30 (erodePass 30 30 rbm0))))) = rbm6
  rw [rpass1, rpass2, rpass3, rpass4, rpass5, rpass6]

theorem ring_seeds_eval : mergedSeeds ringImg = [⟨7, 22, 7, 22⟩] := by
  rw [mergedSeeds, reroded_eval]
  decide!

/-- Claim C5, counterexample: on the ring image the seed scan produces one
merged seed with bounding box (7,7)-(22,22), whose centroid (14,14) is
background in the original binary map, so the defensive skip branch fires
and the seed is dropped: the branch is reachable. -/
theorem c5_counterexample :
    mergedSeeds ringImg = [⟨7, 22, 7, 22⟩] ∧
    centroidBg 30 30 (binaryMap ringImg) ⟨7, 22, 7, 22⟩ = true ∧
    finalRects ringImg = [] := by
  refine ⟨ring_seeds_eval, ?_, ?_⟩
  · rw [rbm0_eval]
    decide!
  · rw [finalRects, growEntries, ring_seeds_eval, rbm0_eval]
    decide!

/-- Claim C5, amended: the original mask at a merged seed's centroid need
not be foreground (ring-shaped components refute it), and the defensive
skip branch is reachable; what does hold is that the grower produces
exactly one grown rectangle per seed whose centroid passes the check, and
drops exactly the seeds whose centroid reads background. -/
theorem c5_amended :
    (∀ (w h bm : Nat) (seeds : List Rect) (claimed : Nat),
      ((growAll w h bm seeds claimed).filterMap (fun e => e.rect)).length
        = (seeds.filter (fun s => !centroidBg w h bm s)).length) ∧
    (∀ img : Img,
      (finalRects img).length
        = ((mergedSeeds img).filter
            (fun s => !centroidBg img.width img.height (binaryMap img) s)).length) := by
  have key : ∀ (w h bm : Nat) (seeds : List Rect) (claimed : Nat),
      ((growAll w h bm seeds claimed).filterMap (fun e => e.rect)).length
        = (seeds.filter (fun s => !centroidBg w h bm s)).length := by
    intro w h bm seeds
    induction seeds with
    | nil => intro claimed; rfl
    | cons s rest ih =>
      intro claimed
      rw [show growAll w h bm (s :: rest) claimed
          = growSeed w h bm claimed s
            :: growAll w h bm rest (growSeed w h bm claimed s).after from rfl]
      rw [List.filterMap_cons, List.filter_cons]
      by_cases hc : centroidBg w h bm s = true
      · rw [show (growSeed w h bm claimed s).rect = none from by
          rw [growSeed, if_pos hc]]
        rw [hc]
        simp only [Bool.not_true, Bool.false_eq_true, if_false]
        exact ih _
      · rw [Bool.not_eq_true] at hc
        rw [show (growSeed w h bm claimed s).rect
            = some ⟨((runFill w h bm (neighbors8 w) (w * h + 1)
                { stack := [((s.minY + s.maxY).fdiv 2 * (w : Int)
                    + (s.minX + s.maxX).fdiv 2).toNat],
                  visited := claimed ||| (1 <<< ((s.minY + s.maxY).fdiv 2 * (w : Int)
                    + (s.minX + s.maxX).fdiv 2).toNat),
                  minX := ((s.minX + s.maxX).fdiv 2).toNat,
                  maxX := ((s.minX + s.maxX).fdiv 2).toNat,
                  minY := ((s.minY + s.maxY).fdiv 2).toNat,
                  maxY := ((s.minY + s.maxY).fdiv 2).toNat,
                  popped := [] }).minX : Int), _, _, _⟩ from by
          rw [growSeed, if_neg (by rw [hc]; simp)]]
        rw [hc]
        simp only [Bool.not_false, if_true, List.length_cons]
        rw [ih _]
  exact ⟨key, fun img => key img.width img.height (binaryMap img) (mergedSeeds img) 0⟩

/-!
## Claim C2 — claimed-pixel exclusivity of the growth traversals
-/

/-- The foreground bitmask of the dumbbell test image on the 56x18 canvas:
two 14x14 squares, (2,2)-(15,15) and (40,2)-(53,15), joined by a 1px bridge
(row 8, columns 16..39).  The bridge erodes away, leaving two seeds more
than 30px apart (so they are not merged), while the original mask is a
single connected blob. -/
def dbm0 : Nat :=
  0x3fff000000fffc3fff000000fffc3fff000000fffc3fff000000fffc3fff000000fffc3fff000000fffc3fff000000fffc3ffffffffffffc3fff000000fffc3fff000000fffc3fff000000fffc3fff000000fffc3fff000000fffc3fff000000fffc0000000000000000000000000000

/-- The dumbbell test image: black exactly on the bits of `dbm0`. -/
def dumbbellImg : Img where
  width := 56
  height := 18
  pix := fun i => if dbm0.testBit i then ⟨0, 0, 0, 255⟩ else ⟨255, 255, 255, 255⟩

/-!
### Staged evaluation of the dumbbell pipeline
-/

/-- The dumbbell mask after 1 erosion pass. -/
def dbm1 : Nat :=
  0x1ffe0000007ff81ffe0000007ff81ffe0000007ff81ffe0000007ff81ffe0000007ff81ffe0000007ff81fff000000fff81ffe0000007ff81ffe0000007ff81ffe0000007ff81ffe0000007ff81ffe0000007ff8000000000000000000000000000000000000000000

/-- The dumbbell mask after 2 erosion passes. -/
def dbm2 : Nat :=
  0xffc0000003ff00ffc0000003ff00ffc0000003ff00ffc0000003ff00ffc0000003ff00ffe0000007ff00ffc0000003ff00ffc0000003ff00ffc0000003ff00ffc0000003ff000000000000000000000000000000000000000000000000000000000

/-- The dumbbell mask after 3 erosion passes. -/
def dbm3 : Nat :=
  0x7f80000001fe007f80000001fe007f80000001fe007f80000001fe007fc0000003fe007f80000001fe007f80000001fe007f80000001fe00000000000000000000000000000000000000000000000000000000000000000000000

/-- The dumbbell mask after 4 erosion passes. -/
def dbm4 : Nat :=
  0x3f00000000fc003f00000000fc003f00000000fc003f80000001fc003f00000000fc003f00000000fc0000000000000000000000000000000000000000000000000000000000000000000000000000000000000

/-- The dumbbell mask after 5 erosion passes. -/
def dbm5 : Nat :=
  0x1e0000000078001e0000000078001f00000000f8001e0000000078000000000000000000000000000000000000000000000000000000000000000000000000000000000000000000000000000

/-- The dumbbell mask after 6 erosion passes. -/
def dbm6 : Nat :=
  0xc0000000030000e000000007000000000000000000000000000000000000000000000000000000000000000000000000000000000000000000000000000000000000000000

theorem dbm0_eval : binaryMap dumbbellImg = dbm0 := by
  apply Nat.eq_of_testBit_eq
  intro j
  cases hb : (dbm0).testBit j with
  | true =>
    have hlt : j < 1008 := by
      by_contra hge
      push_neg at hge
      rw [Nat.testBit_eq_false_of_lt (lt_of_lt_of_le (by decide! : dbm0 < 2 ^ 1008)
        (Nat.pow_le_pow_right (by decide) hge))] at hb
      exact Bool.noConfusion hb
    refine (binaryMap_testBit dumbbellImg j).mpr ⟨hlt, ?_⟩
    rw [show dumbbellImg.pix j
        = if (dbm0).testBit j then ⟨0, 0, 0, 255⟩ else ⟨255, 255, 255, 255⟩ from rfl, hb]
    rfl
  | false =>
    cases hB : (binaryMap dumbbellImg).testBit j with
    | false => rfl
    | true =>
      obtain ⟨hj, hbg⟩ := (binaryMap_testBit dumbbellImg j).mp hB
      rw [show dumbbellImg.pix j
          = if (dbm0).testBit j then ⟨0, 0, 0, 255⟩ else ⟨255, 255, 255, 255⟩ from rfl,
        hb] at hbg
      exact absurd hbg (by decide)

theorem dpass1 : erodePass 56 18 dbm0 = dbm1 := by
  decide!

theorem dpass2 : erodePass 56 18 dbm1 = dbm2 := by
  decide!

theorem dpass3 : erodePass 56 18 dbm2 = dbm3 := by
  decide!

theorem dpass4 : erodePass 56 18 dbm3 = dbm4 := by
  decide!

theorem dpass5 : erodePass 56 18 dbm4 = dbm5 := by
  decide!

theorem dpass6 : erodePass 56 18 dbm5 = dbm6 := by
  decide!

theorem deroded_eval : erodedMap dumbbellImg = dbm6 := by
  rw [erodedMap, dbm0_eval]
  show erodePass 56 18 (erodePass 56 18 (erodePass 56 18 (erodePass 56 18
    (erodePass 56 18 (erodePass 56 18 dbm0))))) = dbm6
  rw [dpass1, dpass2, dpass3, dpass4, dpass5, dpass6]

/-- The dumbbell image's two merged seeds: the eroded cores of the two
squares (the 1px bridge erodes away). -/
theorem dumbbell_seeds_eval :
    mergedSeeds dumbbellImg = [⟨8, 10, 8, 9⟩, ⟨45, 47, 8, 9⟩] := by
  rw [mergedSeeds, deroded_eval]
  decide!

/-- The claimed map after the first growth traversal: the whole dumbbell
blob. -/
def dafter1 : Nat :=
  0x3fff000000fffc3fff000000fffc3fff000000fffc3fff000000fffc3fff000000fffc3fff000000fffc3fff000000fffc3ffffffffffffc3fff000000fffc3fff000000fffc3fff000000fffc3fff000000fffc3fff000000fffc3fff000000fffc0000000000000000000000000000

/-- The pop order of the first growth traversal, most recent first. -/
def dpopped1 : List Nat :=
  [456, 458, 401, 513, 400, 402, 512, 515, 570, 459, 569, 572, 627, 516,
   626, 629, 684, 573, 683, 686, 741, 630, 740, 743, 798, 687, 797, 855,
   852, 795, 739, 850, 793, 738, 737, 848, 791, 736, 735, 846, 789, 734,
   733, 844, 787, 732, 731, 842, 674, 676, 619, 618, 621, 564, 563, 565,
   678, 623, 566, 567, 680, 625, 510, 455, 453, 398, 397, 399, 508, 451,
   396, 395, 506, 338, 340, 283, 282, 285, 228, 227, 229, 342, 287, 230,
   231, 344, 289, 232, 233, 346, 291, 234, 235, 348, 403, 292, 405, 460,
   349, 462, 517, 406, 519, 574, 488, 432, 545, 600, 489, 602, 657, 546,
   656, 659, 714, 603, 713, 716, 771, 660, 770, 773, 828, 717, 827, 830,
   885, 774, 882, 825, 769, 880, 712, 768, 824, 881, 826, 883, 884, 887,
   832, 775, 776, 889, 834, 777, 778, 891, 836, 779, 780, 893, 725, 723,
   668, 667, 613, 611, 556, 555, 501, 499, 444, 443, 389, 387, 332, 331,
   277, 275, 220, 219, 165, 162, 217, 274, 161, 272, 329, 216, 328, 386,
   384, 441, 440, 498, 496, 553, 552, 610, 608, 665, 664, 722, 719, 662,
   607, 606, 605, 548, 547, 550, 493, 492, 495, 438, 437, 383, 381, 326,
   325, 271, 269, 214, 213, 159, 156, 211, 268, 155, 266, 323, 210, 322,
   380, 378, 435, 434, 377, 320, 265, 208, 153, 152, 154, 209, 264, 321,
   376, 433, 490, 491, 436, 379, 324, 267, 212, 157, 158, 160, 215, 270,
   327, 382, 439, 551, 494, 549, 604, 661, 718, 663, 720, 721, 666, 609,
   554, 497, 442, 385, 330, 273, 218, 163, 164, 221, 276, 333, 388, 445,
   500, 557, 612, 669, 724, 781, 837, 892, 835, 890, 833, 888, 831, 886,
   829, 772, 715, 658, 601, 544, 487, 486, 485, 484, 483, 482, 481, 480,
   479, 478, 477, 476, 475, 474, 473, 472, 471, 470, 469, 468, 467, 466,
   465, 464, 351, 294, 293, 239, 237, 182, 181, 127, 124, 179, 236, 122,
   177, 120, 175, 118, 173, 116, 171, 114, 226, 170, 115, 172, 117, 174,
   119, 176, 121, 178, 123, 180, 125, 126, 183, 238, 295, 350, 407, 463,
   631, 575, 518, 461, 404, 347, 290, 345, 288, 343, 286, 341, 284, 339,
   394, 450, 562, 507, 452, 509, 454, 511, 568, 682, 681, 624, 679, 622,
   677, 620, 675, 730, 786, 843, 788, 845, 790, 847, 792, 849, 794, 851,
   796, 853, 854, 799, 742, 685, 628, 571, 514, 457]

/-- The first dumbbell seed passes the centroid check. -/
theorem dgrow1_centroid : centroidBg 56 18 dbm0 ⟨8, 10, 8, 9⟩ = false := by
  decide!

/-- The grower's fill state on the dumbbell before the first pop. -/
def dmid0 : FillState :=
  ⟨[457],
   0x2000000000000000000000000000000000000000000000000000000000000000000000000000000000000000000000000000000000000000000,
   9, 9, 8, 8,
   []⟩

/-- The dumbbell fill state after 64 loop iterations. -/
def dmid1 : FillState :=
  ⟨[176, 120, 177, 122, 236, 179, 124, 127, 181, 182, 237, 239, 293, 294,
   351, 464, 574, 519, 406, 517, 462, 349, 460, 405, 292, 403, 348, 235,
   234, 291, 346, 233, 232, 289, 344, 231, 230, 287, 342, 229, 227, 228,
   285, 282, 283, 340, 338, 506, 395, 396, 451, 508, 399, 397, 398, 453,
   455, 510, 625, 680, 567, 566, 623, 678, 565, 563, 564, 621, 618, 619,
   676, 674, 842, 731, 732, 787, 844, 733, 734, 789, 846, 735, 736, 791,
   848, 737, 738, 793, 850, 739, 795, 852, 855, 797, 687, 798, 743, 740,
   630, 741, 686, 683, 573, 684, 629, 626, 516, 627, 572, 569, 459, 570,
   515, 512, 402, 400, 513, 401, 458, 456],
   0xfffc0000000000fffc0000000000fffc0000000000fffc0000000000fffc0000000000fffc0000000000fffc0000000001fffc0000000000fffc0000000000fffc0000000000fffc0000000000fff80000000000ff000000000000ff000000000000000000000000000000,
   2, 15, 2, 15,
   [121, 178, 123, 180, 125, 126, 183, 238, 295, 350, 407, 463, 631, 575,
   518, 461, 404, 347, 290, 345, 288, 343, 286, 341, 284, 339, 394, 450,
   562, 507, 452, 509, 454, 511, 568, 682, 681, 624, 679, 622, 677, 620,
   675, 730, 786, 843, 788, 845, 790, 847, 792, 849, 794, 851, 796, 853,
   854, 799, 742, 685, 628, 571, 514, 457]⟩

/-- The dumbbell fill state after 128 loop iterations. -/
def dmid2 : FillState :=
  ⟨[892, 780, 779, 836, 891, 778, 777, 834, 889, 776, 775, 832, 887, 884,
   774, 885, 830, 827, 717, 828, 773, 770, 660, 771, 716, 713, 603, 714,
   659, 656, 546, 657, 602, 489, 600, 545, 432, 488, 574, 519, 406, 517,
   462, 349, 460, 405, 292, 403, 348, 235, 234, 291, 346, 233, 232, 289,
   344, 231, 230, 287, 342, 229, 227, 228, 285, 282, 283, 340, 338, 506,
   395, 396, 451, 508, 399, 397, 398, 453, 455, 510, 625, 680, 567, 566,
   623, 678, 565, 563, 564, 621, 618, 619, 676, 674, 842, 731, 732, 787,
   844, 733, 734, 789, 846, 735, 736, 791, 848, 737, 738, 793, 850, 739,
   795, 852, 855, 797, 687, 798, 743, 740, 630, 741, 686, 683, 573, 684,
   629, 626, 516, 627, 572, 569, 459, 570, 515, 512, 402, 400, 513, 401,
   458, 456],
   0x1ff0000000fffc1ff8000000fffc1ffc000000fffc003e000000fffc001f000000fffc000f000000fffc0007000000fffc0003fffffffffc0001000000fffc0000000000fffc0000000000fffc0000000000fffc0000000000fffc0000000000fffc0000000000000000000000000000,
   2, 51, 2, 15,
   [835, 890, 833, 888, 831, 886, 829, 772, 715, 658, 601, 544, 487, 486,
   485, 484, 483, 482, 481, 480, 479, 478, 477, 476, 475, 474, 473, 472,
   471, 470, 469, 468, 467, 466, 465, 464, 351, 294, 293, 239, 237, 182,
   181, 127, 124, 179, 236, 122, 177, 120, 175, 118, 173, 116, 171, 114,
   226, 170, 115, 172, 117, 174, 119, 176, 121, 178, 123, 180, 125, 126,
   183, 238, 295, 350, 407, 463, 631, 575, 518, 461, 404, 347, 290, 345,
   288, 343, 286, 341, 284, 339, 394, 450, 562, 507, 452, 509, 454, 511,
   568, 682, 681, 624, 679, 622, 677, 620, 675, 730, 786, 843, 788, 845,
   790, 847, 792, 849, 794, 851, 796, 853, 854, 799, 742, 685, 628, 571,
   514, 457]⟩

/-- The dumbbell fill state after 192 loop iterations. -/
def dmid3 : FillState :=
  ⟨[322, 210, 323, 266, 155, 268, 211, 156, 159, 213, 214, 269, 271, 325,
   326, 381, 383, 437, 438, 495, 492, 493, 550, 547, 548, 605, 606, 607,
   662, 719, 722, 664, 665, 608, 610, 552, 553, 496, 498, 440, 441, 384,
   386, 328, 216, 329, 272, 161, 274, 217, 162, 165, 219, 220, 275, 277,
   331, 332, 387, 389, 443, 444, 499, 501, 555, 556, 611, 613, 667, 668,
   723, 725, 893, 780, 779, 836, 891, 778, 777, 834, 889, 776, 775, 832,
   887, 884, 774, 885, 830, 827, 717, 828, 773, 770, 660, 771, 716, 713,
   603, 714, 659, 656, 546, 657, 602, 489, 600, 545, 432, 488, 574, 519,
   406, 517, 462, 349, 460, 405, 292, 403, 348, 235, 234, 291, 346, 233,
   232, 289, 344, 231, 230, 287, 342, 229, 227, 228, 285, 282, 283, 340,
   338, 506, 395, 396, 451, 508, 399, 397, 398, 453, 455, 510, 625, 680,
   567, 566, 623, 678, 565, 563, 564, 621, 618, 619, 676, 674, 842, 731,
   732, 787, 844, 733, 734, 789, 846, 735, 736, 791, 848, 737, 738, 793,
   850, 739, 795, 852, 855, 797, 687, 798, 743, 740, 630, 741, 686, 683,
   573, 684, 629, 626, 516, 627, 572, 569, 459, 570, 515, 512, 402, 400,
   513, 401, 458, 456],
   0x3ff0000000fffc3ff8000000fffc3ffc000000fffc3ffe000000fffc3fff000000fffc3fff000000fffc3fff000000fffc3ffffffffffffc3fff000000fffc3fff000000fffc3fff000000fffc3fff000000fffc3fff000000fffc3fff000000fffc0000000000000000000000000000,
   2, 53, 2, 15,
   [380, 378, 435, 434, 377, 320, 265, 208, 153, 152, 154, 209, 264, 321,
   376, 433, 490, 491, 436, 379, 324, 267, 212, 157, 158, 160, 215, 270,
   327, 382, 439, 551, 494, 549, 604, 661, 718, 663, 720, 721, 666, 609,
   554, 497, 442, 385, 330, 273, 218, 163, 164, 221, 276, 333, 388, 445,
   500, 557, 612, 669, 724, 781, 837, 892, 835, 890, 833, 888, 831, 886,
   829, 772, 715, 658, 601, 544, 487, 486, 485, 484, 483, 482, 481, 480,
   479, 478, 477, 476, 475, 474, 473, 472, 471, 470, 469, 468, 467, 466,
   465, 464, 351, 294, 293, 239, 237, 182, 181, 127, 124, 179, 236, 122,
   177, 120, 175, 118, 173, 116, 171, 114, 226, 170, 115, 172, 117, 174,
   119, 176, 121, 178, 123, 180, 125, 126, 183, 238, 295, 350, 407, 463,
   631, 575, 518, 461, 404, 347, 290, 345, 288, 343, 286, 341, 284, 339,
   394, 450, 562, 507, 452, 509, 454, 511, 568, 682, 681, 624, 679, 622,
   677, 620, 675, 730, 786, 843, 788, 845, 790, 847, 792, 849, 794, 851,
   796, 853, 854, 799, 742, 685, 628, 571, 514, 457]⟩

/-- The dumbbell fill state after 256 loop iterations. -/
def dmid4 : FillState :=
  ⟨[555, 556, 611, 613, 667, 668, 723, 725, 893, 780, 779, 836, 891, 778,
   777, 834, 889, 776, 775, 832, 887, 884, 774, 885, 830, 827, 717, 828,
   773, 770, 660, 771, 716, 713, 603, 714, 659, 656, 546, 657, 602, 489,
   600, 545, 432, 488, 574, 519, 406, 517, 462, 349, 460, 405, 292, 403,
   348, 235, 234, 291, 346, 233, 232, 289, 344, 231, 230, 287, 342, 229,
   227, 228, 285, 282, 283, 340, 338, 506, 395, 396, 451, 508, 399, 397,
   398, 453, 455, 510, 625, 680, 567, 566, 623, 678, 565, 563, 564, 621,
   618, 619, 676, 674, 842, 731, 732, 787, 844, 733, 734, 789, 846, 735,
   736, 791, 848, 737, 738, 793, 850, 739, 795, 852, 855, 797, 687, 798,
   743, 740, 630, 741, 686, 683, 573, 684, 629, 626, 516, 627, 572, 569,
   459, 570, 515, 512, 402, 400, 513, 401, 458, 456],
   0x3ff0000000fffc3ff8000000fffc3ffc000000fffc3ffe000000fffc3fff000000fffc3fff000000fffc3fff000000fffc3ffffffffffffc3fff000000fffc3fff000000fffc3fff000000fffc3fff000000fffc3fff000000fffc3fff000000fffc0000000000000000000000000000,
   2, 53, 2, 15,
   [501, 499, 444, 443, 389, 387, 332, 331, 277, 275, 220, 219, 165, 162,
   217, 274, 161, 272, 329, 216, 328, 386, 384, 441, 440, 498, 496, 553,
   552, 610, 608, 665, 664, 722, 719, 662, 607, 606, 605, 548, 547, 550,
   493, 492, 495, 438, 437, 383, 381, 326, 325, 271, 269, 214, 213, 159,
   156, 211, 268, 155, 266, 323, 210, 322, 380, 378, 435, 434, 377, 320,
   265, 208, 153, 152, 154, 209, 264, 321, 376, 433, 490, 491, 436, 379,
   324, 267, 212, 157, 158, 160, 215, 270, 327, 382, 439, 551, 494, 549,
   604, 661, 718, 663, 720, 721, 666, 609, 554, 497, 442, 385, 330, 273,
   218, 163, 164, 221, 276, 333, 388, 445, 500, 557, 612, 669, 724, 781,
   837, 892, 835, 890, 833, 888, 831, 886, 829, 772, 715, 658, 601, 544,
   487, 486, 485, 484, 483, 482, 481, 480, 479, 478, 477, 476, 475, 474,
   473, 472, 471, 470, 469, 468, 467, 466, 465, 464, 351, 294, 293, 239,
   237, 182, 181, 127, 124, 179, 236, 122, 177, 120, 175, 118, 173, 116,
   171, 114, 226, 170, 115, 172, 117, 174, 119, 176, 121, 178, 123, 180,
   125, 126, 183, 238, 295, 350, 407, 463, 631, 575, 518, 461, 404, 347,
   290, 345, 288, 343, 286, 341, 284, 339, 394, 450, 562, 507, 452, 509,
   454, 511, 568, 682, 681, 624, 679, 622, 677, 620, 675, 730, 786, 843,
   788, 845, 790, 847, 792, 849, 794, 851, 796, 853, 854, 799, 742, 685,
   628, 571, 514, 457]⟩

/-- The dumbbell fill state after 320 loop iterations. -/
def dmid5 : FillState :=
  ⟨[292, 403, 348, 235, 234, 291, 346, 233, 232, 289, 344, 231, 230, 287,
   342, 229, 227, 228, 285, 282, 283, 340, 338, 506, 395, 396, 451, 508,
   399, 397, 398, 453, 455, 510, 625, 680, 567, 566, 623, 678, 565, 563,
   564, 621, 618, 619, 676, 674, 842, 731, 732, 787, 844, 733, 734, 789,
   846, 735, 736, 791, 848, 737, 738, 793, 850, 739, 795, 852, 855, 797,
   687, 798, 743, 740, 630, 741, 686, 683, 573, 684, 629, 626, 516, 627,
   572, 569, 459, 570, 515, 512, 402, 400, 513, 401, 458, 456],
   0x3fff000000fffc3fff000000fffc3fff000000fffc3fff000000fffc3fff000000fffc3fff000000fffc3fff000000fffc3ffffffffffffc3fff000000fffc3fff000000fffc3fff000000fffc3fff000000fffc3fff000000fffc3fff000000fffc0000000000000000000000000000,
   2, 53, 2, 15,
   [405, 460, 349, 462, 517, 406, 519, 574, 488, 432, 545, 600, 489, 602,
   657, 546, 656, 659, 714, 603, 713, 716, 771, 660, 770, 773, 828, 717,
   827, 830, 885, 774, 882, 825, 769, 880, 712, 768, 824, 881, 826, 883,
   884, 887, 832, 775, 776, 889, 834, 777, 778, 891, 836, 779, 780, 893,
   725, 723, 668, 667, 613, 611, 556, 555, 501, 499, 444, 443, 389, 387,
   332, 331, 277, 275, 220, 219, 165, 162, 217, 274, 161, 272, 329, 216,
   328, 386, 384, 441, 440, 498, 496, 553, 552, 610, 608, 665, 664, 722,
   719, 662, 607, 606, 605, 548, 547, 550, 493, 492, 495, 438, 437, 383,
   381, 326, 325, 271, 269, 214, 213, 159, 156, 211, 268, 155, 266, 323,
   210, 322, 380, 378, 435, 434, 377, 320, 265, 208, 153, 152, 154, 209,
   264, 321, 376, 433, 490, 491, 436, 379, 324, 267, 212, 157, 158, 160,
   215, 270, 327, 382, 439, 551, 494, 549, 604, 661, 718, 663, 720, 721,
   666, 609, 554, 497, 442, 385, 330, 273, 218, 163, 164, 221, 276, 333,
   388, 445, 500, 557, 612, 669, 724, 781, 837, 892, 835, 890, 833, 888,
   831, 886, 829, 772, 715, 658, 601, 544, 487, 486, 485, 484, 483, 482,
   481, 480, 479, 478, 477, 476, 475, 474, 473, 472, 471, 470, 469, 468,
   467, 466, 465, 464, 351, 294, 293, 239, 237, 182, 181, 127, 124, 179,
   236, 122, 177, 120, 175, 118, 173, 116, 171, 114, 226, 170, 115, 172,
   117, 174, 119, 176, 121, 178, 123, 180, 125, 126, 183, 238, 295, 350,
   407, 463, 631, 575, 518, 461, 404, 347, 290, 345, 288, 343, 286, 341,
   284, 339, 394, 450, 562, 507, 452, 509, 454, 511, 568, 682, 681, 624,
   679, 622, 677, 620, 675, 730, 786, 843, 788, 845, 790, 847, 792, 849,
   794, 851, 796, 853, 854, 799, 742, 685, 628, 571, 514, 457]⟩

/-- The dumbbell fill state after 384 loop iterations. -/
def dmid6 : FillState :=
  ⟨[850, 739, 795, 852, 855, 797, 687, 798, 743, 740, 630, 741, 686, 683,
   573, 684, 629, 626, 516, 627, 572, 569, 459, 570, 515, 512, 402, 400,
   513, 401, 458, 456],
   0x3fff000000fffc3fff000000fffc3fff000000fffc3fff000000fffc3fff000000fffc3fff000000fffc3fff000000fffc3ffffffffffffc3fff000000fffc3fff000000fffc3fff000000fffc3fff000000fffc3fff000000fffc3fff000000fffc0000000000000000000000000000,
   2, 53, 2, 15,
   [793, 738, 737, 848, 791, 736, 735, 846, 789, 734, 733, 844, 787, 732,
   731, 842, 674, 676, 619, 618, 621, 564, 563, 565, 678, 623, 566, 567,
   680, 625, 510, 455, 453, 398, 397, 399, 508, 451, 396, 395, 506, 338,
   340, 283, 282, 285, 228, 227, 229, 342, 287, 230, 231, 344, 289, 232,
   233, 346, 291, 234, 235, 348, 403, 292, 405, 460, 349, 462, 517, 406,
   519, 574, 488, 432, 545, 600, 489, 602, 657, 546, 656, 659, 714, 603,
   713, 716, 771, 660, 770, 773, 828, 717, 827, 830, 885, 774, 882, 825,
   769, 880, 712, 768, 824, 881, 826, 883, 884, 887, 832, 775, 776, 889,
   834, 777, 778, 891, 836, 779, 780, 893, 725, 723, 668, 667, 613, 611,
   556, 555, 501, 499, 444, 443, 389, 387, 332, 331, 277, 275, 220, 219,
   165, 162, 217, 274, 161, 272, 329, 216, 328, 386, 384, 441, 440, 498,
   496, 553, 552, 610, 608, 665, 664, 722, 719, 662, 607, 606, 605, 548,
   547, 550, 493, 492, 495, 438, 437, 383, 381, 326, 325, 271, 269, 214,
   213, 159, 156, 211, 268, 155, 266, 323, 210, 322, 380, 378, 435, 434,
   377, 320, 265, 208, 153, 152, 154, 209, 264, 321, 376, 433, 490, 491,
   436, 379, 324, 267, 212, 157, 158, 160, 215, 270, 327, 382, 439, 551,
   494, 549, 604, 661, 718, 663, 720, 721, 666, 609, 554, 497, 442, 385,
   330, 273, 218, 163, 164, 221, 276, 333, 388, 445, 500, 557, 612, 669,
   724, 781, 837, 892, 835, 890, 833, 888, 831, 886, 829, 772, 715, 658,
   601, 544, 487, 486, 485, 484, 483, 482, 481, 480, 479, 478, 477, 476,
   475, 474, 473, 472, 471, 470, 469, 468, 467, 466, 465, 464, 351, 294,
   293, 239, 237, 182, 181, 127, 124, 179, 236, 122, 177, 120, 175, 118,
   173, 116, 171, 114, 226, 170, 115, 172, 117, 174, 119, 176, 121, 178,
   123, 180, 125, 126, 183, 238, 295, 350, 407, 463, 631, 575, 518, 461,
   404, 347, 290, 345, 288, 343, 286, 341, 284, 339, 394, 450, 562, 507,
   452, 509, 454, 511, 568, 682, 681, 624, 679, 622, 677, 620, 675, 730,
   786, 843, 788, 845, 790, 847, 792, 849, 794, 851, 796, 853, 854, 799,
   742, 685, 628, 571, 514, 457]⟩

/-- The completed dumbbell fill state (stack empty). -/
def dmid7 : FillState :=
  ⟨[],
   0x3fff000000fffc3fff000000fffc3fff000000fffc3fff000000fffc3fff000000fffc3fff000000fffc3fff000000fffc3ffffffffffffc3fff000000fffc3fff000000fffc3fff000000fffc3fff000000fffc3fff000000fffc3fff000000fffc0000000000000000000000000000,
   2, 53, 2, 15,
   [456, 458, 401, 513, 400, 402, 512, 515, 570, 459, 569, 572, 627, 516,
   626, 629, 684, 573, 683, 686, 741, 630, 740, 743, 798, 687, 797, 855,
   852, 795, 739, 850, 793, 738, 737, 848, 791, 736, 735, 846, 789, 734,
   733, 844, 787, 732, 731, 842, 674, 676, 619, 618, 621, 564, 563, 565,
   678, 623, 566, 567, 680, 625, 510, 455, 453, 398, 397, 399, 508, 451,
   396, 395, 506, 338, 340, 283, 282, 285, 228, 227, 229, 342, 287, 230,
   231, 344, 289, 232, 233, 346, 291, 234, 235, 348, 403, 292, 405, 460,
   349, 462, 517, 406, 519, 574, 488, 432, 545, 600, 489, 602, 657, 546,
   656, 659, 714, 603, 713, 716, 771, 660, 770, 773, 828, 717, 827, 830,
   885, 774, 882, 825, 769, 880, 712, 768, 824, 881, 826, 883, 884, 887,
   832, 775, 776, 889, 834, 777, 778, 891, 836, 779, 780, 893, 725, 723,
   668, 667, 613, 611, 556, 555, 501, 499, 444, 443, 389, 387, 332, 331,
   277, 275, 220, 219, 165, 162, 217, 274, 161, 272, 329, 216, 328, 386,
   384, 441, 440, 498, 496, 553, 552, 610, 608, 665, 664, 722, 719, 662,
   607, 606, 605, 548, 547, 550, 493, 492, 495, 438, 437, 383, 381, 326,
   325, 271, 269, 214, 213, 159, 156, 211, 268, 155, 266, 323, 210, 322,
   380, 378, 435, 434, 377, 320, 265, 208, 153, 152, 154, 209, 264, 321,
   376, 433, 490, 491, 436, 379, 324, 267, 212, 157, 158, 160, 215, 270,
   327, 382, 439, 551, 494, 549, 604, 661, 718, 663, 720, 721, 666, 609,
   554, 497, 442, 385, 330, 273, 218, 163, 164, 221, 276, 333, 388, 445,
   500, 557, 612, 669, 724, 781, 837, 892, 835, 890, 833, 888, 831, 886,
   829, 772, 715, 658, 601, 544, 487, 486, 485, 484, 483, 482, 481, 480,
   479, 478, 477, 476, 475, 474, 473, 472, 471, 470, 469, 468, 467, 466,
   465, 464, 351, 294, 293, 239, 237, 182, 181, 127, 124, 179, 236, 122,
   177, 120, 175, 118, 173, 116, 171, 114, 226, 170, 115, 172, 117, 174,
   119, 176, 121, 178, 123, 180, 125, 126, 183, 238, 295, 350, 407, 463,
   631, 575, 518, 461, 404, 347, 290, 345, 288, 343, 286, 341, 284, 339,
   394, 450, 562, 507, 452, 509, 454, 511, 568, 682, 681, 624, 679, 622,
   677, 620, 675, 730, 786, 843, 788, 845, 790, 847, 792, 849, 794, 851,
   796, 853, 854, 799, 742, 685, 628, 571, 514, 457]⟩

theorem dfill1 :
    runFill 56 18 dbm0 (neighbors8 56) 64 dmid0 = dmid1 := by
  decide!

theorem dfill2 :
    runFill 56 18 dbm0 (neighbors8 56) 64 dmid1 = dmid2 := by
  decide!

theorem dfill3 :
    runFill 56 18 dbm0 (neighbors8 56) 64 dmid2 = dmid3 := by
  decide!

theorem dfill4 :
    runFill 56 18 dbm0 (neighbors8 56) 64 dmid3 = dmid4 := by
  decide!

theorem dfill5 :
    runFill 56 18 dbm0 (neighbors8 56) 64 dmid4 = dmid5 := by
  decide!

theorem dfill6 :
    runFill 56 18 dbm0 (neighbors8 56) 64 dmid5 = dmid6 := by
  decide!

theorem dfill7 :
    runFill 56 18 dbm0 (neighbors8 56) 64 dmid6 = dmid7 := by
  decide!

theorem dfill8 :
    runFill 56 18 dbm0 (neighbors8 56) 561 dmid7 = dmid7 := by
  decide!

theorem dgrow1_eval :
    growSeed 56 18 dbm0 0 ⟨8, 10, 8, 9⟩ =
      { rect := some ⟨2, 53, 2, 15⟩, before := 0, after := dafter1,
        popped := dpopped1 } := by
  rw [growSeed_else 56 18 dbm0 0 ⟨8, 10, 8, 9⟩ dgrow1_centroid]
  rw [show growStart 56 0 ⟨8, 10, 8, 9⟩ = dmid0 from by decide!]
  rw [show (56 * 18 + 1 : Nat) = 64 + (64 + (64 + (64 + (64 + (64 + (64 + 561))))))
    from by norm_num]
  rw [runFill_add, dfill1, runFill_add, dfill2, runFill_add, dfill3, runFill_add, dfill4,
    runFill_add, dfill5, runFill_add, dfill6, runFill_add, dfill7, dfill8]
  decide!

/-- The grow records of the dumbbell image: the first traversal claims the
whole blob; the second pops only its start pixel 494, already claimed. -/
theorem dentries_eval :
    growEntries dumbbellImg =
      [{ rect := some ⟨2, 53, 2, 15⟩, before := 0, after := dafter1,
         popped := dpopped1 },
       { rect := some ⟨46, 46, 8, 8⟩, before := dafter1, after := dafter1,
         popped := [494] }] := by
  rw [growEntries, dumbbell_seeds_eval, dbm0_eval]
  show growAll 56 18 dbm0 [⟨8, 10, 8, 9⟩, ⟨45, 47, 8, 9⟩] 0 = _
  rw [growAll_cons, dgrow1_eval]
  decide!

theorem dfinal_eval :
    finalRects dumbbellImg = [⟨2, 53, 2, 15⟩, ⟨46, 46, 8, 8⟩] := by
  rw [finalRects, dentries_eval]
  rfl

theorem dextract_eval :
    extractionRects dumbbellImg = [⟨2, 53, 2, 15⟩, ⟨46, 46, 8, 8⟩] := by
  rw [extractionRects, dfinal_eval]
  decide!

/-- Claim C2, counterexample: on the dumbbell image the first traversal
claims the whole connected blob, and the second seed's start pixel 494
(pixel (46,8), foreground in the original mask) is pushed again without a
claimed check, so pixel 494 is visited (popped) by both traversals: the
visited sets are not pairwise disjoint. -/
theorem c2_counterexample :
    ((growEntries dumbbellImg).map (fun e => decide (494 ∈ e.popped))) = [true, true] ∧
    (binaryMap dumbbellImg).testBit 494 = true := by
  rw [dentries_eval, dbm0_eval]
  decide!

/-- The neighbour-push fold of `stepFill` only ORs bits into the visited
map. -/
theorem pushFold_mono (w h mask : Nat) :
    ∀ (l : List Int) (st : FillState) (p : Nat),
      st.visited.testBit p = true →
      ((l.foldl (pushStep w h mask) st).visited.testBit p = true)
  | [], _, _, hp => hp
  | n :: l, st, p, hp => by
    rw [List.foldl_cons]
    refine pushFold_mono w h mask l _ p ?_
    rw [pushStep]
    by_cases h1 : inRangeIdx w h n = true
    · rw [if_pos h1]
      by_cases h2 : (mask.testBit n.toNat && !st.visited.testBit n.toNat) = true
      · rw [if_pos h2]
        show (st.visited ||| (1 <<< n.toNat)).testBit p = true
        rw [Nat.testBit_or, hp, Bool.true_or]
      · rw [if_neg h2]
        exact hp
    · rw [if_neg h1]
      exact hp

/-- One flood-fill iteration only grows the visited map. -/
theorem stepFill_mono (w h mask : Nat) (nbrs : Nat → List Int) (s : FillState)
    (p : Nat) (hp : s.visited.testBit p = true) :
    (stepFill w h mask nbrs s).visited.testBit p = true := by
  rw [stepFill]
  cases hs : s.stack with
  | nil => exact hp
  | cons curr rest => exact pushFold_mono w h mask (nbrs curr) _ p hp

/-- The flood-fill loop only grows the visited map. -/
theorem runFill_mono (w h mask : Nat) (nbrs : Nat → List Int) :
    ∀ (fuel : Nat) (s : FillState) (p : Nat),
      s.visited.testBit p = true →
      (runFill w h mask nbrs fuel s).visited.testBit p = true
  | 0, _, _, hp => hp
  | fuel + 1, s, p, hp => by
    cases hs : s.stack with
    | nil => rw [runFill_succ_nil w h mask nbrs fuel s hs]; exact hp
    | cons c l =>
      rw [runFill_succ_cons w h mask nbrs fuel s c l hs]
      exact runFill_mono w h mask nbrs fuel _ p (stepFill_mono w h mask nbrs s p hp)

/-- `growSeed` records the incoming claimed map unchanged. -/
theorem growSeed_before (w h bm claimed : Nat) (s : Rect) :
    (growSeed w h bm claimed s).before = claimed := by
  rw [growSeed]
  split
  · rfl
  · rfl

/-- The claimed map only grows across one region-growing attempt. -/
theorem growSeed_mono (w h bm claimed : Nat) (s : Rect) (p : Nat)
    (hp : claimed.testBit p = true) :
    (growSeed w h bm claimed s).after.testBit p = true := by
  rw [growSeed]
  split
  · exact hp
  · refine runFill_mono w h bm (neighbors8 w) (w * h + 1) _ p ?_
    show (claimed ||| _).testBit p = true
    rw [Nat.testBit_or, hp, Bool.true_or]

/-- Any bit of the claimed map at the start of the grow loop is still
claimed when a later entry starts. -/
theorem growAll_before_super (w h bm : Nat) :
    ∀ (seeds : List Rect) (claimed : Nat) (k : Nat)
      (hk : k < (growAll w h bm seeds claimed).length) (p : Nat),
      claimed.testBit p = true →
      ((growAll w h bm seeds claimed).get ⟨k, hk⟩).before.testBit p = true
  | [], _, k, hk, _, _ => absurd hk (by simp [growAll])
  | s :: rest, claimed, 0, hk, p, hp => by
    show (growSeed w h bm claimed s).before.testBit p = true
    rw [growSeed_before]
    exact hp
  | s :: rest, claimed, k + 1, hk, p, hp => by
    show ((growAll w h bm rest (growSeed w h bm claimed s).after).get ⟨k, _⟩).before.testBit p
      = true
    exact growAll_before_super w h bm rest _ k _ p (growSeed_mono w h bm claimed s p hp)

/-- Pixels claimed by an earlier entry's traversal are already claimed when
any later entry starts. -/
theorem growAll_chain (w h bm : Nat) :
    ∀ (seeds : List Rect) (claimed : Nat) (j k : Nat)
      (hj : j < (growAll w h bm seeds claimed).length)
      (hk : k < (growAll w h bm seeds claimed).length), j < k → ∀ p : Nat,
      ((growAll w h bm seeds claimed).get ⟨j, hj⟩).after.testBit p = true →
      ((growAll w h bm seeds claimed).get ⟨k, hk⟩).before.testBit p = true
  | [], _, j, k, hj, _, _, _, _ => absurd hj (by simp [growAll])
  | s :: rest, claimed, 0, k + 1, hj, hk, _, p, hp => by
    show ((growAll w h bm rest (growSeed w h bm claimed s).after).get ⟨k, _⟩).before.testBit p
      = true
    exact growAll_before_super w h bm rest _ k _ p hp
  | s :: rest, claimed, j + 1, k + 1, hj, hk, hjk, p, hp => by
    show ((growAll w h bm rest (growSeed w h bm claimed s).after).get ⟨k, _⟩).before.testBit p
      = true
    exact growAll_chain w h bm rest _ j k _ _ (by omega) p hp

/-- Claim C2, amended: a pixel is claimed before being pushed except for a
seed's start pixel, which the grower pushes without consulting the claimed
map; hence it is the per-seed sets of newly claimed pixels (claimed after a
traversal but not before it) that are pairwise disjoint, while the visited
sets themselves can share a later seed's start pixel. -/
theorem c2_amended :
    (∀ (w h bm : Nat) (seeds : List Rect) (claimed : Nat) (j k : Nat)
      (hj : j < (growAll w h bm seeds claimed).length)
      (hk : k < (growAll w h bm seeds claimed).length), j < k → ∀ p : Nat,
      ((growAll w h bm seeds claimed).get ⟨j, hj⟩).before.testBit p = false →
      ((growAll w h bm seeds claimed).get ⟨j, hj⟩).after.testBit p = true →
      ¬(((growAll w h bm seeds claimed).get ⟨k, hk⟩).before.testBit p = false ∧
        ((growAll w h bm seeds claimed).get ⟨k, hk⟩).after.testBit p = true)) ∧
    (∀ (img : Img) (j k : Nat)
      (hj : j < (growEntries img).length) (hk : k < (growEntries img).length),
      j < k → ∀ p : Nat,
      ((growEntries img).get ⟨j, hj⟩).before.testBit p = false →
      ((growEntries img).get ⟨j, hj⟩).after.testBit p = true →
      ¬(((growEntries img).get ⟨k, hk⟩).before.testBit p = false ∧
        ((growEntries img).get ⟨k, hk⟩).after.testBit p = true)) := by
  have key : ∀ (w h bm : Nat) (seeds : List Rect) (claimed : Nat) (j k : Nat)
      (hj : j < (growAll w h bm seeds claimed).length)
      (hk : k < (growAll w h bm seeds claimed).length), j < k → ∀ p : Nat,
      ((growAll w h bm seeds claimed).get ⟨j, hj⟩).before.testBit p = false →
      ((growAll w h bm seeds claimed).get ⟨j, hj⟩).after.testBit p = true →
      ¬(((growAll w h bm seeds claimed).get ⟨k, hk⟩).before.testBit p = false ∧
        ((growAll w h bm seeds claimed).get ⟨k, hk⟩).after.testBit p = true) := by
    intro w h bm seeds claimed j k hj hk hjk p _ haft
    rintro ⟨hkbef, _⟩
    have := growAll_chain w h bm seeds claimed j k hj hk hjk p haft
    rw [hkbef] at this
    exact absurd this (by simp)
  exact ⟨key, fun img => key img.width img.height (binaryMap img) (mergedSeeds img) 0⟩

/-- Claim C2, witness: the disjointness applied to a concrete 4x1 mask with
two one-pixel seeds — the pixel newly claimed by the first traversal is
already claimed before the second starts. -/
theorem c2_witness :
    ¬(((growAll 4 1 5 [⟨0, 0, 0, 0⟩, ⟨2, 2, 0, 0⟩] 0).get ⟨1, by decide⟩).before.testBit 0
        = false ∧
      ((growAll 4 1 5 [⟨0, 0, 0, 0⟩, ⟨2, 2, 0, 0⟩] 0).get ⟨1, by decide⟩).after.testBit 0
        = true) :=
  c2_amended.1 4 1 5 [⟨0, 0, 0, 0⟩, ⟨2, 2, 0, 0⟩] 0 0 1 (by decide) (by decide)
    (by decide) 0 (by decide) (by decide)

/-!
## Claim C1 — there is no grid fallback
-/

/-- Claim C1, counterexample: on the dumbbell image the merged region count
is 2, far below the floor of 10, yet the rectangles passed to extraction
are the two organically grown ones — not a 4x4 grid of 16 cells.  No grid
fallback exists in `processStickerSheet`. -/
theorem c1_counterexample :
    (mergedSeeds dumbbellImg).length < 10 ∧
    extractionRects dumbbellImg = [⟨2, 53, 2, 15⟩, ⟨46, 46, 8, 8⟩] ∧
    (extractionRects dumbbellImg).length ≠ 16 :=
  ⟨by rw [dumbbell_seeds_eval]; decide, dextract_eval, by rw [dextract_eval]; decide⟩

theorem insertSorted_perm (x : Rect) :
    ∀ l : List Rect, (insertSorted x l).Perm (x :: l)
  | [] => List.Perm.refl _
  | y :: ys => by
    rw [insertSorted]
    by_cases hle : rectLe x y = true
    · rw [if_pos hle]
    · rw [if_neg hle]
      exact ((insertSorted_perm x ys).cons y).trans (List.Perm.swap x y ys)

theorem sortRects_perm : ∀ l : List Rect, (sortRects l).Perm l
  | [] => List.Perm.refl _
  | x :: xs =>
    (insertSorted_perm x (sortRects xs)).trans ((sortRects_perm xs).cons x)

/-- Claim C1, amended: when the merged region count is below the floor of
10, no grid is imposed: the rectangles passed to extraction are exactly the
organically grown rectangles, merely reordered by position
(`processStickerSheet` contains no region-count check and no grid
fallback). -/
theorem c1_amended (img : Img) (_hlow : (mergedSeeds img).length < 10) :
    (extractionRects img).Perm (finalRects img) :=
  sortRects_perm (finalRects img)

/-- Claim C1, witness: the amended statement at the dumbbell image, whose
merged region count 2 is below the floor. -/
theorem c1_witness : (extractionRects dumbbellImg).Perm (finalRects dumbbellImg) :=
  c1_amended dumbbellImg (by rw [dumbbell_seeds_eval]; decide)

/-!
## Claim C3 — the 400x400 single-square scenario

The pipeline is evaluated symbolically on `img400`: the binary map is the
solid square (150,150)-(250,250); six erosion passes shrink it to
(156,156)-(244,244); the seed scan labels that square as the single seed;
the region grower restores (150,150)-(250,250); extraction crops with
`rawW = maxX - minX = 100`, which drops the last row and column, so the
tight content box in source coordinates is (150,150)-(249,249).
-/

/-- The 400x400 test canvas of the claim: a black square on pixels
(150,150)-(250,250), white elsewhere. -/
def img400 : Img where
  width := 400
  height := 400
  pix := fun i =>
    let x := i % 400
    let y := i / 400
    if 150 ≤ x ∧ x ≤ 250 ∧ 150 ≤ y ∧ y ≤ 250 then ⟨0, 0, 0, 255⟩
    else ⟨255, 255, 255, 255⟩

/-- Linear index `p` lies in the inclusive pixel rectangle
`[a,b] x [c,d]` of a 400-wide image. -/
def inR (a b c d p : Nat) : Prop :=
  a ≤ p % 400 ∧ p % 400 ≤ b ∧ c ≤ p / 400 ∧ p / 400 ≤ d

instance (a b c d p : Nat) : Decidable (inR a b c d p) := by
  rw [inR]
  infer_instance

/-- The mask `m` is exactly the solid rectangle `[a,b] x [c,d]`. -/
def maskRect (m a b c d : Nat) : Prop :=
  ∀ p : Nat, m.testBit p = true ↔ inR a b c d p

/-- The survival condition unfolded to the five mask bits. -/
theorem eroCond_iff (w m j : Nat) :
    eroCond w m j = true ↔
      (m.testBit j = true ∧ m.testBit (j - 1) = true ∧ m.testBit (j + 1) = true ∧
       m.testBit (j - w) = true ∧ m.testBit (j + w) = true) := by
  rw [eroCond]
  rcases m.testBit j <;> rcases m.testBit (j - 1) <;> rcases m.testBit (j + 1) <;>
    rcases m.testBit (j - w) <;> rcases m.testBit (j + w) <;> simp

/-- The binary map of `img400` is the solid square (150,150)-(250,250). -/
theorem bm400_rect : maskRect (binaryMap img400) 150 250 150 250 := by
  intro p
  rw [binaryMap_testBit, inR]
  have hpix : img400.pix p
      = if 150 ≤ p % 400 ∧ p % 400 ≤ 250 ∧ 150 ≤ p / 400 ∧ p / 400 ≤ 250
        then ⟨0, 0, 0, 255⟩ else ⟨255, 255, 255, 255⟩ := rfl
  by_cases hc : 150 ≤ p % 400 ∧ p % 400 ≤ 250 ∧ 150 ≤ p / 400 ∧ p / 400 ≤ 250
  · rw [hpix, if_pos hc]
    constructor
    · intro _
      exact ⟨hc.1, hc.2.1, hc.2.2.1, hc.2.2.2⟩
    · intro _
      show p < 400 * 400 ∧ isBackground 0 0 0 255 240 = false
      refine ⟨?_, by decide⟩
      have := hc.2.2.2
      omega
  · rw [hpix, if_neg hc]
    constructor
    · rintro ⟨_, hbg⟩
      exact absurd hbg (by decide)
    · intro hr
      exact absurd ⟨hr.1, hr.2.1, hr.2.2.1, hr.2.2.2⟩ hc

/-- One erosion pass shrinks a solid rectangle mask by one pixel on each
side. -/
theorem erodePass_rect400 (m a b c d : Nat) (hm : maskRect m a b c d)
    (ha : 1 ≤ a) (hab : a + 2 ≤ b) (hb : b ≤ 398)
    (hc : 1 ≤ c) (hcd : c + 2 ≤ d) (hd : d ≤ 398) :
    maskRect (erodePass 400 400 m) (a + 1) (b - 1) (c + 1) (d - 1) := by
  intro p
  rw [erodePass_testBit 400 400 m p, eroCond_iff 400 m p, hm p, hm (p - 1), hm (p + 1),
    hm (p - 400), hm (p + 400), inR, inR, inR, inR, inR, inR]
  omega

/-- Six erosion passes shrink the square (150,150)-(250,250) to
(156,156)-(244,244). -/
theorem eroded400_rect : maskRect (erodedMap img400) 156 244 156 244 := by
  show maskRect (erodeN 400 400 6 (binaryMap img400)) 156 244 156 244
  have h1 := erodePass_rect400 _ _ _ _ _ bm400_rect
    (by omega) (by omega) (by omega) (by omega) (by omega) (by omega)
  have h2 := erodePass_rect400 _ _ _ _ _ h1
    (by omega) (by omega) (by omega) (by omega) (by omega) (by omega)
  have h3 := erodePass_rect400 _ _ _ _ _ h2
    (by omega) (by omega) (by omega) (by omega) (by omega) (by omega)
  have h4 := erodePass_rect400 _ _ _ _ _ h3
    (by omega) (by omega) (by omega) (by omega) (by omega) (by omega)
  have h5 := erodePass_rect400 _ _ _ _ _ h4
    (by omega) (by omega) (by omega) (by omega) (by omega) (by omega)
  have h6 := erodePass_rect400 _ _ _ _ _ h5
    (by omega) (by omega) (by omega) (by omega) (by omega) (by omega)
  exact h6

/-!
### Flood-fill completeness on a solid rectangle (400x400)
-/

/-- Every masked linear-index 4-neighbour of `p` is visited. -/
def processedAt (M v p : Nat) : Prop :=
  (M.testBit (p - 1) = true → v.testBit (p - 1) = true) ∧
  (M.testBit (p + 1) = true → v.testBit (p + 1) = true) ∧
  (M.testBit (p - 400) = true → v.testBit (p - 400) = true) ∧
  (M.testBit (p + 400) = true → v.testBit (p + 400) = true)

theorem processedAt_mono (M v w' p : Nat)
    (hvv : ∀ q, v.testBit q = true → w'.testBit q = true)
    (hp : processedAt M v p) : processedAt M w' p :=
  ⟨fun h => hvv _ (hp.1 h), fun h => hvv _ (hp.2.1 h), fun h => hvv _ (hp.2.2.1 h),
   fun h => hvv _ (hp.2.2.2 h)⟩

/-- The flood-fill loop invariant for a solid-rectangle mask. -/
def fillInv (M a b c d : Nat) (s : FillState) : Prop :=
  (∀ p, p ∈ s.stack → s.visited.testBit p = true) ∧
  (∀ p, s.visited.testBit p = true → inR a b c d p) ∧
  (∀ p, s.visited.testBit p = true → p ∉ s.stack → processedAt M s.visited p) ∧
  (a ≤ s.minX ∧ s.maxX ≤ b ∧ c ≤ s.minY ∧ s.maxY ≤ d) ∧
  (∀ p, s.visited.testBit p = true → p ∉ s.stack →
    s.minX ≤ p % 400 ∧ p % 400 ≤ s.maxX ∧ s.minY ≤ p / 400 ∧ p / 400 ≤ s.maxY)

/-- The push fold never removes stack entries. -/
theorem pushFold_stack_super (M : Nat) :
    ∀ (l : List Int) (st : FillState) (q : Nat),
      q ∈ st.stack → q ∈ (l.foldl (pushStep 400 400 M) st).stack
  | [], _, _, hq => hq
  | n :: l, st, q, hq => by
    rw [List.foldl_cons]
    refine pushFold_stack_super M l _ q ?_
    rw [pushStep]
    by_cases h1 : inRangeIdx 400 400 n = true
    · rw [if_pos h1]
      by_cases h2 : (M.testBit n.toNat && !st.visited.testBit n.toNat) = true
      · rw [if_pos h2]
        exact List.mem_cons_of_mem _ hq
      · rw [if_neg h2]
        exact hq
    · rw [if_neg h1]
      exact hq

/-- After the push fold, every stack entry is visited (given the same held
before). -/
theorem pushFold_stack_visited (M : Nat) :
    ∀ (l : List Int) (st : FillState),
      (∀ q, q ∈ st.stack → st.visited.testBit q = true) →
      ∀ q, q ∈ (l.foldl (pushStep 400 400 M) st).stack →
        (l.foldl (pushStep 400 400 M) st).visited.testBit q = true
  | [], _, h, q, hq => h q hq
  | n :: l, st, h, q, hq => by
    rw [List.foldl_cons] at hq ⊢
    refine pushFold_stack_visited M l _ ?_ q hq
    intro q' hq'
    rw [pushStep] at hq' ⊢
    by_cases h1 : inRangeIdx 400 400 n = true
    · rw [if_pos h1] at hq' ⊢
      by_cases h2 : (M.testBit n.toNat && !st.visited.testBit n.toNat) = true
      · rw [if_pos h2] at hq' ⊢
        show (st.visited ||| (1 <<< n.toNat)).testBit q' = true
        rcases List.mem_cons.mp hq' with hh | hh
        · subst hh
          rw [testBit_set]
          simp
        · rw [testBit_set, h q' hh, Bool.true_or]
      · rw [if_neg h2] at hq' ⊢
        exact h q' hq'
    · rw [if_neg h1] at hq' ⊢
      exact h q' hq'

/-- Discharge the range filter for a concrete 400x400 image. -/
theorem inRangeIdx_true (n : Int) (h0 : 0 ≤ n) (hlt : n < 160000) :
    inRangeIdx 400 400 n = true := by
  rw [inRangeIdx, decide_eq_true h0,
    decide_eq_true (show n < ((400 : Nat) : Int) * ((400 : Nat) : Int) by push_cast; omega)]
  rfl

/-- A pixel visited after the push fold was visited before, or is a masked
pixel now on the stack. -/
theorem pushFold_new (M : Nat) :
    ∀ (l : List Int) (st : FillState) (p : Nat),
      (l.foldl (pushStep 400 400 M) st).visited.testBit p = true →
      st.visited.testBit p = true ∨
        (M.testBit p = true ∧ p ∈ (l.foldl (pushStep 400 400 M) st).stack)
  | [], _, _, hp => Or.inl hp
  | n :: l, st, p, hp => by
    rw [List.foldl_cons] at hp ⊢
    rcases pushFold_new M l _ p hp with h | h
    · rw [pushStep] at h
      by_cases h1 : inRangeIdx 400 400 n = true
      · rw [if_pos h1] at h
        by_cases h2 : (M.testBit n.toNat && !st.visited.testBit n.toNat) = true
        · rw [if_pos h2] at h
          replace h : (st.visited ||| (1 <<< n.toNat)).testBit p = true := h
          rw [testBit_set, Bool.or_eq_true] at h
          rcases h with h | h
          · exact Or.inl h
          · have hpn : n.toNat = p := of_decide_eq_true h
            subst hpn
            have hM2 : M.testBit n.toNat = true := by
              rw [Bool.and_eq_true] at h2
              exact h2.1
            refine Or.inr ⟨hM2, ?_⟩
            refine pushFold_stack_super M l _ _ ?_
            rw [pushStep, if_pos h1, if_pos h2]
            exact List.mem_cons_self _ _
        · rw [if_neg h2] at h
          exact Or.inl h
      · rw [if_neg h1] at h
        exact Or.inl h
    · exact Or.inr h

/-- A candidate of the list that is in range, masked, and whose index is the
target is visited after the push fold. -/
theorem pushFold_candidate (M : Nat) :
    ∀ (l : List Int) (st : FillState) (n : Int),
      n ∈ l → 0 ≤ n → n < 160000 → M.testBit n.toNat = true →
      (l.foldl (pushStep 400 400 M) st).visited.testBit n.toNat = true
  | [], _, _, hmem, _, _, _ => absurd hmem (List.not_mem_nil _)
  | m :: l, st, n, hmem, h0, hlt, hM => by
    rw [List.foldl_cons]
    rcases List.mem_cons.mp hmem with he | hmem2
    · subst he
      refine pushFold_mono 400 400 M l _ _ ?_
      rw [pushStep, if_pos (inRangeIdx_true n h0 hlt)]
      by_cases h2 : (M.testBit n.toNat && !st.visited.testBit n.toNat) = true
      · rw [if_pos h2]
        show (st.visited ||| (1 <<< n.toNat)).testBit n.toNat = true
        rw [testBit_set]
        simp
      · rw [if_neg h2]
        rw [Bool.and_eq_true] at h2
        cases hv : st.visited.testBit n.toNat with
        | true => rfl
        | false => exact absurd ⟨hM, by rw [hv]; rfl⟩ h2
    · exact pushFold_candidate M l _ n hmem2 h0 hlt hM

/-- The push fold does not touch the bounding box or the popped list. -/
theorem pushFold_bbox (M : Nat) :
    ∀ (l : List Int) (st : FillState),
      (l.foldl (pushStep 400 400 M) st).minX = st.minX ∧
      (l.foldl (pushStep 400 400 M) st).maxX = st.maxX ∧
      (l.foldl (pushStep 400 400 M) st).minY = st.minY ∧
      (l.foldl (pushStep 400 400 M) st).maxY = st.maxY ∧
      (l.foldl (pushStep 400 400 M) st).popped = st.popped
  | [], _ => ⟨rfl, rfl, rfl, rfl, rfl⟩
  | n :: l, st => by
    rw [List.foldl_cons]
    have ih := pushFold_bbox M l (pushStep 400 400 M st n)
    have hb : (pushStep 400 400 M st n).minX = st.minX ∧
        (pushStep 400 400 M st n).maxX = st.maxX ∧
        (pushStep 400 400 M st n).minY = st.minY ∧
        (pushStep 400 400 M st n).maxY = st.maxY ∧
        (pushStep 400 400 M st n).popped = st.popped := by
      rw [pushStep]
      by_cases h1 : inRangeIdx 400 400 n = true
      · rw [if_pos h1]
        by_cases h2 : (M.testBit n.toNat && !st.visited.testBit n.toNat) = true
        · rw [if_pos h2]
          exact ⟨rfl, rfl, rfl, rfl, rfl⟩
        · rw [if_neg h2]
          exact ⟨rfl, rfl, rfl, rfl, rfl⟩
      · rw [if_neg h1]
        exact ⟨rfl, rfl, rfl, rfl, rfl⟩
    exact ⟨ih.1.trans hb.1, ih.2.1.trans hb.2.1, ih.2.2.1.trans hb.2.2.1,
      ih.2.2.2.1.trans hb.2.2.2.1, ih.2.2.2.2.trans hb.2.2.2.2⟩


/-- The state after popping `curr`: stack tail, bounding box folded with
`curr`'s coordinates, `curr` recorded as popped. -/
def popTo (s : FillState) (curr : Nat) (rest : List Nat) : FillState :=
  { stack := rest, visited := s.visited,
    minX := min s.minX (curr % 400), maxX := max s.maxX (curr % 400),
    minY := min s.minY (curr / 400), maxY := max s.maxY (curr / 400),
    popped := curr :: s.popped }

theorem stepFill_eq_fold (M : Nat) (nbrs : Nat → List Int) (s : FillState)
    (curr : Nat) (rest : List Nat) (hs : s.stack = curr :: rest) :
    stepFill 400 400 M nbrs s = (nbrs curr).foldl (pushStep 400 400 M) (popTo s curr rest) := by
  rw [stepFill, hs]
  rfl

/-- One flood-fill iteration preserves the invariant, for any candidate
function whose lists contain the four linear-index neighbours. -/
theorem stepFill_inv (M a b c d : Nat) (nbrs : Nat → List Int)
    (hm : maskRect M a b c d)
    (hn : ∀ curr : Nat, ((curr : Int) - 1) ∈ nbrs curr ∧ ((curr : Int) + 1) ∈ nbrs curr ∧
      ((curr : Int) - 400) ∈ nbrs curr ∧ ((curr : Int) + 400) ∈ nbrs curr)
    (ha : 1 ≤ a) (hb : b ≤ 398) (hc : 1 ≤ c) (hd : d ≤ 398)
    (s : FillState) (hinv : fillInv M a b c d s) :
    fillInv M a b c d (stepFill 400 400 M nbrs s) := by
  obtain ⟨h1, h2, h3, h4, h5⟩ := hinv
  cases hs : s.stack with
  | nil =>
    have hred : stepFill 400 400 M nbrs s = s := by
      rw [stepFill, hs]
    rw [hred]
    exact ⟨h1, h2, h3, h4, h5⟩
  | cons curr rest =>
    rw [stepFill_eq_fold M nbrs s curr rest hs]
    have hcurv : s.visited.testBit curr = true := h1 curr (by rw [hs]; exact List.mem_cons_self _ _)
    obtain ⟨hA, hB, hC, hD⟩ := h2 curr hcurv
    have hrange : curr < 160000 := by omega
    have hs1sv : ∀ q, q ∈ (popTo s curr rest).stack →
        (popTo s curr rest).visited.testBit q = true := by
      intro q hq
      exact h1 q (by rw [hs]; exact List.mem_cons_of_mem _ hq)
    have hmono : ∀ q, s.visited.testBit q = true →
        ((nbrs curr).foldl (pushStep 400 400 M) (popTo s curr rest)).visited.testBit q
          = true := by
      intro q hq
      exact pushFold_mono 400 400 M (nbrs curr) (popTo s curr rest) q hq
    have hbbox := pushFold_bbox M (nbrs curr) (popTo s curr rest)
    refine ⟨?_, ?_, ?_, ?_, ?_⟩
    · exact pushFold_stack_visited M (nbrs curr) (popTo s curr rest) hs1sv
    · intro p hp
      rcases pushFold_new M (nbrs curr) (popTo s curr rest) p hp with hold | ⟨hM, _⟩
      · exact h2 p hold
      · exact (hm p).mp hM
    · intro p hp hpns
      rcases pushFold_new M (nbrs curr) (popTo s curr rest) p hp with hold | ⟨_, hin⟩
      · have hpnrest : p ∉ rest := fun hmem =>
          hpns (pushFold_stack_super M (nbrs curr) (popTo s curr rest) p hmem)
        by_cases hpc : p = curr
        · subst hpc
          refine ⟨fun hMq => ?_, fun hMq => ?_, fun hMq => ?_, fun hMq => ?_⟩
          · have hnt : ((p : Int) - 1).toNat = p - 1 := by omega
            have := pushFold_candidate M (nbrs p) (popTo s p rest) ((p : Int) - 1)
              (hn p).1 (by omega) (by omega) (by rw [hnt]; exact hMq)
            rw [hnt] at this
            exact this
          · have hnt : ((p : Int) + 1).toNat = p + 1 := by omega
            have := pushFold_candidate M (nbrs p) (popTo s p rest) ((p : Int) + 1)
              (hn p).2.1 (by omega) (by omega) (by rw [hnt]; exact hMq)
            rw [hnt] at this
            exact this
          · have hnt : ((p : Int) - 400).toNat = p - 400 := by omega
            have := pushFold_candidate M (nbrs p) (popTo s p rest) ((p : Int) - 400)
              (hn p).2.2.1 (by omega) (by omega) (by rw [hnt]; exact hMq)
            rw [hnt] at this
            exact this
          · have hnt : ((p : Int) + 400).toNat = p + 400 := by omega
            have := pushFold_candidate M (nbrs p) (popTo s p rest) ((p : Int) + 400)
              (hn p).2.2.2 (by omega) (by omega) (by rw [hnt]; exact hMq)
            rw [hnt] at this
            exact this
        · have hpnstack : p ∉ s.stack := by
            rw [hs]
            intro hmem
            rcases List.mem_cons.mp hmem with he | hmem2
            · exact hpc he
            · exact hpnrest hmem2
          exact processedAt_mono M s.visited _ p hmono (h3 p hold hpnstack)
      · exact absurd hin hpns
    · rw [hbbox.1, hbbox.2.1, hbbox.2.2.1, hbbox.2.2.2.1]
      show a ≤ min s.minX (curr % 400) ∧ max s.maxX (curr % 400) ≤ b ∧
        c ≤ min s.minY (curr / 400) ∧ max s.maxY (curr / 400) ≤ d
      obtain ⟨g1, g2, g3, g4⟩ := h4
      omega
    · intro p hp hpns
      rw [hbbox.1, hbbox.2.1, hbbox.2.2.1, hbbox.2.2.2.1]
      show min s.minX (curr % 400) ≤ p % 400 ∧ p % 400 ≤ max s.maxX (curr % 400) ∧
        min s.minY (curr / 400) ≤ p / 400 ∧ p / 400 ≤ max s.maxY (curr / 400)
      rcases pushFold_new M (nbrs curr) (popTo s curr rest) p hp with hold | ⟨_, hin⟩
      · have hpnrest : p ∉ rest := fun hmem =>
          hpns (pushFold_stack_super M (nbrs curr) (popTo s curr rest) p hmem)
        by_cases hpc : p = curr
        · subst hpc
          omega
        · have hpnstack : p ∉ s.stack := by
            rw [hs]
            intro hmem
            rcases List.mem_cons.mp hmem with he | hmem2
            · exact hpc he
            · exact hpnrest hmem2
          obtain ⟨g1, g2, g3, g4⟩ := h5 p hold hpnstack
          omega
      · exact absurd hin hpns
/-- The flood-fill loop preserves the invariant. -/
theorem runFill_inv (M a b c d : Nat) (nbrs : Nat → List Int)
    (hm : maskRect M a b c d)
    (hn : ∀ curr : Nat, ((curr : Int) - 1) ∈ nbrs curr ∧ ((curr : Int) + 1) ∈ nbrs curr ∧
      ((curr : Int) - 400) ∈ nbrs curr ∧ ((curr : Int) + 400) ∈ nbrs curr)
    (ha : 1 ≤ a) (hb : b ≤ 398) (hc : 1 ≤ c) (hd : d ≤ 398) :
    ∀ (fuel : Nat) (s : FillState), fillInv M a b c d s →
      fillInv M a b c d (runFill 400 400 M nbrs fuel s)
  | 0, s, hinv => hinv
  | fuel + 1, s, hinv => by
    cases hs : s.stack with
    | nil =>
      rw [runFill_succ_nil 400 400 M nbrs fuel s hs]
      exact hinv
    | cons curr rest =>
      rw [runFill_succ_cons 400 400 M nbrs fuel s curr rest hs]
      exact runFill_inv M a b c d nbrs hm hn ha hb hc hd fuel _
        (stepFill_inv M a b c d nbrs hm hn ha hb hc hd s hinv)

/-- Number of unvisited pixels of the rectangle. -/
def unvis (a b c d v : Nat) : Nat :=
  ((Finset.range 160000).filter (fun p => inR a b c d p ∧ v.testBit p = false)).card

/-- Flood-fill termination measure. -/
def fillMeasure (a b c d : Nat) (s : FillState) : Nat :=
  s.stack.length + 2 * unvis a b c d s.visited

/-- Marking an unvisited rectangle pixel decrements the unvisited count. -/
theorem unvis_set (a b c d v nn : Nat) (hr : inR a b c d nn) (hnn : nn < 160000)
    (hv : v.testBit nn = false) :
    unvis a b c d (v ||| (1 <<< nn)) = unvis a b c d v - 1 ∧ 1 ≤ unvis a b c d v := by
  have hmem : nn ∈ (Finset.range 160000).filter
      (fun p => inR a b c d p ∧ v.testBit p = false) := by
    rw [Finset.mem_filter, Finset.mem_range]
    exact ⟨hnn, hr, hv⟩
  have hset : (Finset.range 160000).filter
        (fun p => inR a b c d p ∧ (v ||| (1 <<< nn)).testBit p = false)
      = ((Finset.range 160000).filter
        (fun p => inR a b c d p ∧ v.testBit p = false)).erase nn := by
    ext q
    rw [Finset.mem_erase, Finset.mem_filter, Finset.mem_filter, testBit_set]
    constructor
    · rintro ⟨hq1, hq2, hq3⟩
      rw [Bool.or_eq_false_iff] at hq3
      refine ⟨?_, hq1, hq2, hq3.1⟩
      intro he
      subst he
      rw [decide_eq_true rfl] at hq3
      exact absurd hq3.2 (by simp)
    · rintro ⟨hne, hq1, hq2, hq3⟩
      refine ⟨hq1, hq2, ?_⟩
      rw [Bool.or_eq_false_iff]
      exact ⟨hq3, by rw [decide_eq_false (fun he => hne he.symm)]⟩
  constructor
  · rw [unvis, hset, Finset.card_erase_of_mem hmem]
    rfl
  · rw [unvis]
    exact Finset.card_pos.mpr ⟨nn, hmem⟩

/-- One candidate step does not increase the measure. -/
theorem pushStep_measure (M a b c d : Nat) (hm : maskRect M a b c d)
    (st : FillState) (n : Int) :
    fillMeasure a b c d (pushStep 400 400 M st n) ≤ fillMeasure a b c d st := by
  rw [pushStep]
  by_cases h1 : inRangeIdx 400 400 n = true
  · rw [if_pos h1]
    by_cases h2 : (M.testBit n.toNat && !st.visited.testBit n.toNat) = true
    · rw [if_pos h2]
      rw [Bool.and_eq_true] at h2
      have hv : st.visited.testBit n.toNat = false := by
        cases hvv : st.visited.testBit n.toNat with
        | false => rfl
        | true =>
          rw [hvv] at h2
          exact absurd h2.2 (by simp)
      have hr : inR a b c d n.toNat := (hm _).mp h2.1
      have hnn : n.toNat < 160000 := by
        rw [inRangeIdx, Bool.and_eq_true, decide_eq_true_eq, decide_eq_true_eq] at h1
        omega
      obtain ⟨hdec, hpos⟩ := unvis_set a b c d st.visited n.toNat hr hnn hv
      show (n.toNat :: st.stack).length + 2 * unvis a b c d (st.visited ||| (1 <<< n.toNat))
          ≤ st.stack.length + 2 * unvis a b c d st.visited
      rw [List.length_cons, hdec]
      omega
    · rw [if_neg h2]
  · rw [if_neg h1]

/-- The push fold does not increase the measure. -/
theorem pushFold_measure (M a b c d : Nat) (hm : maskRect M a b c d) :
    ∀ (l : List Int) (st : FillState),
      fillMeasure a b c d (l.foldl (pushStep 400 400 M) st) ≤ fillMeasure a b c d st
  | [], _ => Nat.le_refl _
  | n :: l, st => by
    rw [List.foldl_cons]
    exact Nat.le_trans (pushFold_measure M a b c d hm l _) (pushStep_measure M a b c d hm st n)

/-- A loop iteration on a non-empty stack strictly decreases the measure. -/
theorem stepFill_measure (M a b c d : Nat) (hm : maskRect M a b c d)
    (nbrs : Nat → List Int) (s : FillState) (curr : Nat) (rest : List Nat)
    (hs : s.stack = curr :: rest) :
    fillMeasure a b c d (stepFill 400 400 M nbrs s) < fillMeasure a b c d s := by
  rw [stepFill_eq_fold M nbrs s curr rest hs]
  refine Nat.lt_of_le_of_lt (pushFold_measure M a b c d hm (nbrs curr) _) ?_
  show rest.length + 2 * unvis a b c d s.visited < fillMeasure a b c d s
  rw [fillMeasure, hs, List.length_cons]
  omega

/-- With fuel at least the measure, the loop drains its stack. -/
theorem runFill_empties (M a b c d : Nat) (hm : maskRect M a b c d)
    (nbrs : Nat → List Int) :
    ∀ (fuel : Nat) (s : FillState), fillMeasure a b c d s ≤ fuel →
      (runFill 400 400 M nbrs fuel s).stack = []
  | 0, s, hf => by
    have hlen : s.stack.length = 0 := by
      rw [fillMeasure] at hf
      omega
    rw [runFill_zero]
    exact List.length_eq_zero.mp hlen
  | fuel + 1, s, hf => by
    cases hs : s.stack with
    | nil =>
      rw [runFill_succ_nil 400 400 M nbrs fuel s hs]
      exact hs
    | cons curr rest =>
      rw [runFill_succ_cons 400 400 M nbrs fuel s curr rest hs]
      refine runFill_empties M a b c d hm nbrs fuel _ ?_
      have := stepFill_measure M a b c d hm nbrs s curr rest hs
      omega
/-- From a neighbour-closed visited set containing one rectangle pixel, the
whole rectangle is visited. -/
theorem reach_rect (M a b c d v : Nat) (hm : maskRect M a b c d)
    (ha : 1 ≤ a) (hb : b ≤ 398) (hc : 1 ≤ c)
    (hcl : ∀ p, v.testBit p = true → processedAt M v p)
    (i0 : Nat) (hi0 : inR a b c d i0) (hstart : v.testBit i0 = true) :
    ∀ t, inR a b c d t → v.testBit t = true := by
  obtain ⟨hA, hB, hC, hD⟩ := hi0
  have hup : ∀ k, i0 / 400 + k ≤ d →
      v.testBit ((i0 / 400 + k) * 400 + i0 % 400) = true := by
    intro k
    induction k with
    | zero =>
      intro _
      have he : (i0 / 400 + 0) * 400 + i0 % 400 = i0 := by omega
      rw [he]
      exact hstart
    | succ k ih =>
      intro hk
      have hprev := ih (by omega)
      have hMq : M.testBit (((i0 / 400 + k) * 400 + i0 % 400) + 400) = true := by
        rw [hm]
        have hmod : (((i0 / 400 + k) * 400 + i0 % 400) + 400) % 400 = i0 % 400 := by omega
        have hdiv : (((i0 / 400 + k) * 400 + i0 % 400) + 400) / 400 = i0 / 400 + k + 1 := by
          omega
        rw [inR, hmod, hdiv]
        exact ⟨hA, hB, by omega, by omega⟩
      have hnext := (hcl _ hprev).2.2.2 hMq
      have he : ((i0 / 400 + k) * 400 + i0 % 400) + 400
          = (i0 / 400 + (k + 1)) * 400 + i0 % 400 := by omega
      rw [he] at hnext
      exact hnext
  have hdown : ∀ k, c ≤ i0 / 400 - k →
      v.testBit ((i0 / 400 - k) * 400 + i0 % 400) = true := by
    intro k
    induction k with
    | zero =>
      intro _
      have he : (i0 / 400 - 0) * 400 + i0 % 400 = i0 := by omega
      rw [he]
      exact hstart
    | succ k ih =>
      intro hk
      have hprev := ih (by omega)
      have hMq : M.testBit (((i0 / 400 - k) * 400 + i0 % 400) - 400) = true := by
        rw [hm]
        have hmod : (((i0 / 400 - k) * 400 + i0 % 400) - 400) % 400 = i0 % 400 := by omega
        have hdiv : (((i0 / 400 - k) * 400 + i0 % 400) - 400) / 400 = i0 / 400 - (k + 1) := by
          omega
        rw [inR, hmod, hdiv]
        exact ⟨hA, hB, by omega, by omega⟩
      have hnext := (hcl _ hprev).2.2.1 hMq
      have he : ((i0 / 400 - k) * 400 + i0 % 400) - 400
          = (i0 / 400 - (k + 1)) * 400 + i0 % 400 := by omega
      rw [he] at hnext
      exact hnext
  have hcol : ∀ q, c ≤ q → q ≤ d → v.testBit (q * 400 + i0 % 400) = true := by
    intro q hq1 hq2
    rcases Nat.le_total (i0 / 400) q with hle | hle
    · have := hup (q - i0 / 400) (by omega)
      have he : (i0 / 400 + (q - i0 / 400)) * 400 + i0 % 400 = q * 400 + i0 % 400 := by omega
      rw [he] at this
      exact this
    · have := hdown (i0 / 400 - q) (by omega)
      have he : (i0 / 400 - (i0 / 400 - q)) * 400 + i0 % 400 = q * 400 + i0 % 400 := by omega
      rw [he] at this
      exact this
  have hright : ∀ q, c ≤ q → q ≤ d → ∀ k, i0 % 400 + k ≤ b →
      v.testBit (q * 400 + (i0 % 400 + k)) = true := by
    intro q hq1 hq2 k
    induction k with
    | zero =>
      intro _
      exact hcol q hq1 hq2
    | succ k ih =>
      intro hk
      have hprev := ih (by omega)
      have hMq : M.testBit ((q * 400 + (i0 % 400 + k)) + 1) = true := by
        rw [hm]
        have hmod : ((q * 400 + (i0 % 400 + k)) + 1) % 400 = i0 % 400 + k + 1 := by omega
        have hdiv : ((q * 400 + (i0 % 400 + k)) + 1) / 400 = q := by omega
        rw [inR, hmod, hdiv]
        exact ⟨by omega, by omega, hq1, hq2⟩
      have hnext := (hcl _ hprev).2.1 hMq
      have he : (q * 400 + (i0 % 400 + k)) + 1 = q * 400 + (i0 % 400 + (k + 1)) := by omega
      rw [he] at hnext
      exact hnext
  have hleft : ∀ q, c ≤ q → q ≤ d → ∀ k, a ≤ i0 % 400 - k →
      v.testBit (q * 400 + (i0 % 400 - k)) = true := by
    intro q hq1 hq2 k
    induction k with
    | zero =>
      intro _
      exact hcol q hq1 hq2
    | succ k ih =>
      intro hk
      have hprev := ih (by omega)
      have hMq : M.testBit ((q * 400 + (i0 % 400 - k)) - 1) = true := by
        rw [hm]
        have hmod : ((q * 400 + (i0 % 400 - k)) - 1) % 400 = i0 % 400 - (k + 1) := by omega
        have hdiv : ((q * 400 + (i0 % 400 - k)) - 1) / 400 = q := by omega
        rw [inR, hmod, hdiv]
        exact ⟨by omega, by omega, hq1, hq2⟩
      have hnext := (hcl _ hprev).1 hMq
      have he : (q * 400 + (i0 % 400 - k)) - 1 = q * 400 + (i0 % 400 - (k + 1)) := by omega
      rw [he] at hnext
      exact hnext
  intro t ht
  obtain ⟨t1, t2, t3, t4⟩ := ht
  rcases Nat.le_total (i0 % 400) (t % 400) with hle | hle
  · have := hright (t / 400) t3 t4 (t % 400 - i0 % 400) (by omega)
    have he : t / 400 * 400 + (i0 % 400 + (t % 400 - i0 % 400)) = t := by omega
    rw [he] at this
    exact this
  · have := hleft (t / 400) t3 t4 (i0 % 400 - t % 400) (by omega)
    have he : t / 400 * 400 + (i0 % 400 - (i0 % 400 - t % 400)) = t := by omega
    rw [he] at this
    exact this
/-- The fill state at the start of a flood fill from pixel `i0` over a fresh
visited map. -/
def initFill (i0 : Nat) : FillState :=
  { stack := [i0], visited := 1 <<< i0,
    minX := i0 % 400, maxX := i0 % 400, minY := i0 / 400, maxY := i0 / 400,
    popped := [] }

theorem initFill_inv (M a b c d i0 : Nat) (hi0 : inR a b c d i0) :
    fillInv M a b c d (initFill i0) := by
  obtain ⟨hA, hB, hC, hD⟩ := hi0
  refine ⟨?_, ?_, ?_, ⟨hA, hB, hC, hD⟩, ?_⟩
  · intro p hp
    show (1 <<< i0).testBit p = true
    rcases List.mem_cons.mp hp with he | he
    · subst he
      rw [testBit_one_shiftLeft]
      exact decide_eq_true rfl
    · exact absurd he (List.not_mem_nil p)
  · intro p hp
    replace hp : (1 <<< i0).testBit p = true := hp
    rw [testBit_one_shiftLeft] at hp
    have he : i0 = p := of_decide_eq_true hp
    subst he
    exact ⟨hA, hB, hC, hD⟩
  · intro p hp hpn
    replace hp : (1 <<< i0).testBit p = true := hp
    rw [testBit_one_shiftLeft] at hp
    have he : i0 = p := of_decide_eq_true hp
    subst he
    exact absurd (List.mem_cons_self _ _) hpn
  · intro p hp hpn
    replace hp : (1 <<< i0).testBit p = true := hp
    rw [testBit_one_shiftLeft] at hp
    have he : i0 = p := of_decide_eq_true hp
    subst he
    exact absurd (List.mem_cons_self _ _) hpn

/-- The unvisited count is at most the rectangle's area. -/
theorem unvis_le_area (a b c d v : Nat) :
    unvis a b c d v ≤ (b - a + 1) * (d - c + 1) := by
  rw [unvis]
  have hcard : ((Finset.range 160000).filter
        (fun p => inR a b c d p ∧ v.testBit p = false)).card
      ≤ ((Finset.Icc a b) ×ˢ (Finset.Icc c d)).card := by
    refine Finset.card_le_card_of_injOn (fun p => (p % 400, p / 400)) ?_ ?_
    · intro p hp
      rw [Finset.mem_filter] at hp
      obtain ⟨_, ⟨hp1, hp2, hp3, hp4⟩, _⟩ := hp
      rw [Finset.mem_product, Finset.mem_Icc, Finset.mem_Icc]
      exact ⟨⟨hp1, hp2⟩, hp3, hp4⟩
    · intro p _ q _ he
      have h1 : p % 400 = q % 400 := congrArg Prod.fst he
      have h2 : p / 400 = q / 400 := congrArg Prod.snd he
      omega
  refine le_trans hcard ?_
  rw [Finset.card_product, Nat.card_Icc, Nat.card_Icc]
  exact Nat.mul_le_mul (by omega) (by omega)

/-- Flood fill from any pixel of a solid rectangle, with enough fuel and a
fresh visited map, drains its stack, visits exactly the rectangle, and
reports the rectangle as its bounding box. -/
theorem runFill_rect400 (M a b c d : Nat) (nbrs : Nat → List Int)
    (hm : maskRect M a b c d)
    (hn : ∀ curr : Nat, ((curr : Int) - 1) ∈ nbrs curr ∧ ((curr : Int) + 1) ∈ nbrs curr ∧
      ((curr : Int) - 400) ∈ nbrs curr ∧ ((curr : Int) + 400) ∈ nbrs curr)
    (ha : 1 ≤ a) (hab : a ≤ b) (hb : b ≤ 398) (hc : 1 ≤ c) (hcd : c ≤ d) (hd : d ≤ 398)
    (i0 : Nat) (hi0 : inR a b c d i0)
    (fuel : Nat) (hfuel : 1 + 2 * ((b - a + 1) * (d - c + 1)) ≤ fuel) :
    (runFill 400 400 M nbrs fuel (initFill i0)).stack = [] ∧
    (∀ p, (runFill 400 400 M nbrs fuel (initFill i0)).visited.testBit p = true ↔
      inR a b c d p) ∧
    (runFill 400 400 M nbrs fuel (initFill i0)).minX = a ∧
    (runFill 400 400 M nbrs fuel (initFill i0)).maxX = b ∧
    (runFill 400 400 M nbrs fuel (initFill i0)).minY = c ∧
    (runFill 400 400 M nbrs fuel (initFill i0)).maxY = d := by
  have hempty : (runFill 400 400 M nbrs fuel (initFill i0)).stack = [] := by
    refine runFill_empties M a b c d hm nbrs fuel (initFill i0) ?_
    have hu := unvis_le_area a b c d (1 <<< i0)
    show (1 : Nat) + 2 * unvis a b c d (1 <<< i0) ≤ fuel
    omega
  have hinv := runFill_inv M a b c d nbrs hm hn ha hb hc hd fuel (initFill i0)
    (initFill_inv M a b c d i0 hi0)
  obtain ⟨hv1, hv2, hv3, hv4, hv5⟩ := hinv
  have hstart : (runFill 400 400 M nbrs fuel (initFill i0)).visited.testBit i0 = true := by
    refine runFill_mono 400 400 M nbrs fuel (initFill i0) i0 ?_
    show (1 <<< i0).testBit i0 = true
    rw [testBit_one_shiftLeft]
    exact decide_eq_true rfl
  have hcl : ∀ p, (runFill 400 400 M nbrs fuel (initFill i0)).visited.testBit p = true →
      processedAt M (runFill 400 400 M nbrs fuel (initFill i0)).visited p := by
    intro p hp
    refine hv3 p hp ?_
    rw [hempty]
    exact List.not_mem_nil p
  have hreach := reach_rect M a b c d _ hm ha hb hc hcl i0 hi0 hstart
  have hiff : ∀ p, (runFill 400 400 M nbrs fuel (initFill i0)).visited.testBit p = true ↔
      inR a b c d p := fun p => ⟨hv2 p, hreach p⟩
  have hcov : ∀ p, inR a b c d p →
      (runFill 400 400 M nbrs fuel (initFill i0)).minX ≤ p % 400 ∧
      p % 400 ≤ (runFill 400 400 M nbrs fuel (initFill i0)).maxX ∧
      (runFill 400 400 M nbrs fuel (initFill i0)).minY ≤ p / 400 ∧
      p / 400 ≤ (runFill 400 400 M nbrs fuel (initFill i0)).maxY := by
    intro p hp
    refine hv5 p (hreach p hp) ?_
    rw [hempty]
    exact List.not_mem_nil p
  obtain ⟨g1, g2, g3, g4⟩ := hv4
  have hca : inR a b c d (c * 400 + a) := by
    rw [inR]
    have hmod : (c * 400 + a) % 400 = a := by omega
    have hdiv : (c * 400 + a) / 400 = c := by omega
    rw [hmod, hdiv]
    exact ⟨Nat.le_refl a, by omega, Nat.le_refl c, by omega⟩
  have hcb : inR a b c d (c * 400 + b) := by
    rw [inR]
    have hmod : (c * 400 + b) % 400 = b := by omega
    have hdiv : (c * 400 + b) / 400 = c := by omega
    rw [hmod, hdiv]
    exact ⟨by omega, Nat.le_refl b, Nat.le_refl c, by omega⟩
  have hda : inR a b c d (d * 400 + a) := by
    rw [inR]
    have hmod : (d * 400 + a) % 400 = a := by omega
    have hdiv : (d * 400 + a) / 400 = d := by omega
    rw [hmod, hdiv]
    exact ⟨Nat.le_refl a, by omega, by omega, Nat.le_refl d⟩
  obtain ⟨k1, k2, k3, k4⟩ := hcov _ hca
  obtain ⟨k5, k6, k7, k8⟩ := hcov _ hcb
  obtain ⟨k9, k10, k11, k12⟩ := hcov _ hda
  refine ⟨hempty, hiff, ?_, ?_, ?_, ?_⟩ <;> omega
theorem foldRangeSt_split {σ : Type} (f : σ → Nat → σ) :
    ∀ (l1 l2 lo : Nat) (st : σ),
      foldRangeSt f (l1 + l2) lo st = foldRangeSt f l2 (lo + l1) (foldRangeSt f l1 lo st)
  | 0, l2, lo, st => by
    rw [Nat.zero_add, foldRangeSt_zero, Nat.add_zero]
  | l1 + 1, l2, lo, st => by
    rw [show l1 + 1 + l2 = (l1 + l2) + 1 from by omega]
    rw [foldRangeSt_succ, foldRangeSt_succ]
    rw [foldRangeSt_split f l1 l2 (lo + 1) (f st lo)]
    rw [show lo + 1 + l1 = lo + (l1 + 1) from by omega]

/-- A scan range where every foreground pixel is already visited changes
nothing. -/
theorem scan_skip (w h M : Nat) :
    ∀ (len lo : Nat) (st : ScanState),
      (∀ i, lo ≤ i → i < lo + len → (M.testBit i = false ∨ st.visited.testBit i = true)) →
      foldRangeSt (scanStep w h M) len lo st = st
  | 0, _, _, _ => rfl
  | len + 1, lo, st, hskip => by
    rw [foldRangeSt_succ]
    have hstep : scanStep w h M st lo = st := by
      rw [scanStep]
      rcases hskip lo (Nat.le_refl lo) (by omega) with hM | hv
      · rw [hM]
        simp
      · rw [hv]
        simp
    rw [hstep]
    exact scan_skip w h M len (lo + 1) st (fun i h1 h2 => hskip i (by omega) (by omega))

/-- The four linear-index neighbours are among the 4-neighbour candidates. -/
theorem neighbors4_has (curr : Nat) :
    ((curr : Int) - 1) ∈ neighbors4 400 curr ∧ ((curr : Int) + 1) ∈ neighbors4 400 curr ∧
    ((curr : Int) - 400) ∈ neighbors4 400 curr ∧ ((curr : Int) + 400) ∈ neighbors4 400 curr := by
  refine ⟨?_, ?_, ?_, ?_⟩ <;> simp [neighbors4]

/-- The four linear-index neighbours are among the 8-neighbour candidates. -/
theorem neighbors8_has (curr : Nat) :
    ((curr : Int) - 1) ∈ neighbors8 400 curr ∧ ((curr : Int) + 1) ∈ neighbors8 400 curr ∧
    ((curr : Int) - 400) ∈ neighbors8 400 curr ∧ ((curr : Int) + 400) ∈ neighbors8 400 curr := by
  refine ⟨?_, ?_, ?_, ?_⟩ <;> simp [neighbors8]

/-- When the scan fires at a foreground pixel with an empty prior visited
set, the fill state it builds is exactly `initFill i`. -/
theorem scanStep_fire (M i : Nat) (h : M.testBit i = true) :
    scanStep 400 400 M ⟨[], 0⟩ i =
      ⟨[⟨((runFill 400 400 M (neighbors4 400) (400 * 400 + 1) (initFill i)).minX : Int),
         ((runFill 400 400 M (neighbors4 400) (400 * 400 + 1) (initFill i)).maxX : Int),
         ((runFill 400 400 M (neighbors4 400) (400 * 400 + 1) (initFill i)).minY : Int),
         ((runFill 400 400 M (neighbors4 400) (400 * 400 + 1) (initFill i)).maxY : Int)⟩],
       (runFill 400 400 M (neighbors4 400) (400 * 400 + 1) (initFill i)).visited⟩ := by
  rw [scanStep]
  have hcond : (M.testBit i && !(ScanState.mk [] 0).visited.testBit i) = true := by
    rw [h, show (ScanState.mk [] 0).visited.testBit i = false from Nat.zero_testBit _]
    rfl
  rw [if_pos hcond]
  rw [show (ScanState.mk [] 0).visited ||| (1 <<< i) = 1 <<< i from Nat.zero_or _]
  rfl

/-- After the fill from pixel 62556, every foreground pixel of the eroded
map is recorded in the scan's visited set. -/
theorem scan_tail_skip400 (V : Nat)
    (hvis : ∀ p, V.testBit p = true ↔ inR 156 244 156 244 p) :
    ∀ i, 62556 + 1 ≤ i → i < 62556 + 1 + 97443 →
      ((erodedMap img400).testBit i = false ∨
        (ScanState.mk [⟨156, 244, 156, 244⟩] V).visited.testBit i = true) := by
  intro i _ _
  cases hbit : (erodedMap img400).testBit i with
  | false => exact Or.inl rfl
  | true => exact Or.inr ((hvis i).mpr ((eroded400_rect i).mp hbit))

/-- The seed scan of `img400` finds exactly one merged seed: the eroded
square (156,156)-(244,244). -/
theorem mergedSeeds400 : mergedSeeds img400 = [⟨156, 244, 156, 244⟩] := by
  have hfill := runFill_rect400 (erodedMap img400) 156 244 156 244 (neighbors4 400)
    eroded400_rect neighbors4_has (by norm_num) (by norm_num) (by norm_num)
    (by norm_num) (by norm_num) (by norm_num) 62556
    (by rw [inR]; norm_num) (400 * 400 + 1) (by norm_num)
  obtain ⟨hst, hvis, hmx, hMx, hmy, hMy⟩ := hfill
  generalize hV : (runFill 400 400 (erodedMap img400) (neighbors4 400) (400 * 400 + 1)
    (initFill 62556)).visited = V at hvis
  have hskip1 : ∀ i, (0 : Nat) ≤ i → i < 0 + 62556 →
      ((erodedMap img400).testBit i = false ∨
        (ScanState.mk [] 0).visited.testBit i = true) := by
    intro i _ h2
    cases hbit : (erodedMap img400).testBit i with
    | false => exact Or.inl rfl
    | true =>
      have hr := (eroded400_rect i).mp hbit
      rw [inR] at hr
      exfalso
      omega
  have hfire : foldRangeSt (scanStep 400 400 (erodedMap img400)) 1 62556 ⟨[], 0⟩
      = ⟨[⟨156, 244, 156, 244⟩], V⟩ := by
    rw [foldRangeSt_succ, foldRangeSt_zero]
    rw [scanStep_fire (erodedMap img400) 62556
      ((eroded400_rect _).mpr (by rw [inR]; norm_num))]
    rw [hmx, hMx, hmy, hMy, hV]
    norm_num
  rw [mergedSeeds]
  show (foldRangeSt (scanStep 400 400 (erodedMap img400)) 160000 0 ⟨[], 0⟩).seeds = _
  rw [show (160000 : Nat) = 62556 + (1 + 97443) from by norm_num]
  rw [foldRangeSt_split]
  rw [Nat.zero_add 62556]
  rw [scan_skip 400 400 (erodedMap img400) 62556 0 ⟨[], 0⟩ hskip1]
  rw [foldRangeSt_split]
  rw [hfire]
  rw [scan_skip 400 400 (erodedMap img400) 97443 (62556 + 1) _ (scan_tail_skip400 V hvis)]

/-!
### The region grower on `img400`
-/

/-- The single merged seed of `img400` passes the centroid check: pixel
(200,200) is foreground in the original binary map. -/
theorem centroidBg400 : centroidBg 400 400 (binaryMap img400) ⟨156, 244, 156, 244⟩ = false := by
  rw [centroidBg]
  show (decide ((0 : Int) ≤ 80200) &&
      decide ((80200 : Int) < ((400 : Nat) : Int) * ((400 : Nat) : Int)) &&
      !(binaryMap img400).testBit (Int.toNat 80200)) = false
  rw [show (binaryMap img400).testBit (Int.toNat 80200) = true from
    (bm400_rect _).mpr (by rw [inR]; decide)]
  rfl

/-- The grower on `img400`: the fill from centroid pixel 80200 = (200,200)
recovers the full square (150,150)-(250,250). -/
theorem growSeed400 :
    growSeed 400 400 (binaryMap img400) 0 ⟨156, 244, 156, 244⟩ =
      { rect := some ⟨150, 250, 150, 250⟩,
        before := 0,
        after := (runFill 400 400 (binaryMap img400) (neighbors8 400) (400 * 400 + 1)
          (initFill 80200)).visited,
        popped := (runFill 400 400 (binaryMap img400) (neighbors8 400) (400 * 400 + 1)
          (initFill 80200)).popped } := by
  obtain ⟨hst, hvis, hmx, hMx, hmy, hMy⟩ :=
    runFill_rect400 (binaryMap img400) 150 250 150 250 (neighbors8 400) bm400_rect
      neighbors8_has (by norm_num) (by norm_num) (by norm_num) (by norm_num)
      (by norm_num) (by norm_num) 80200 (by rw [inR]; norm_num) (400 * 400 + 1) (by norm_num)
  rw [growSeed_else 400 400 (binaryMap img400) 0 ⟨156, 244, 156, 244⟩ centroidBg400]
  rw [show growStart 400 0 ⟨156, 244, 156, 244⟩ = initFill 80200 from by
    rw [growStart, Nat.zero_or]
    rfl]
  rw [hmx, hMx, hmy, hMy]
  norm_num

/-- The grown rectangles of `img400`: exactly the original square. -/
theorem finalRects400 : finalRects img400 = [⟨150, 250, 150, 250⟩] := by
  rw [finalRects, growEntries, mergedSeeds400]
  show (growAll 400 400 (binaryMap img400) [⟨156, 244, 156, 244⟩] 0).filterMap
    (fun e => e.rect) = _
  rw [growAll_cons, growAll_nil, growSeed400]
  rfl

/-- The sorted extraction list of `img400` is the single grown square. -/
theorem extractionRects400 : extractionRects img400 = [⟨150, 250, 150, 250⟩] := by
  rw [extractionRects, finalRects400]
  rfl

/-!
### Extraction on `img400`
-/

/-- Every pixel of the 100x100 crop at (150,150) of `img400` qualifies in
the second-pass scan: the crop lies inside the black square. -/
theorem qual400 (x y : Nat) (hx : x < 100) (hy : y < 100) :
    qualPix img400 150 150 x y = true := by
  have hm : ((150 + y) * 400 + (150 + x)) % 400 = 150 + x :=
    coords_mod 400 (150 + y) (150 + x) (by omega)
  have hd : ((150 + y) * 400 + (150 + x)) / 400 = 150 + y :=
    coords_div 400 (150 + y) (150 + x) (by omega)
  have hpix : img400.pix ((150 + y) * 400 + (150 + x))
      = if 150 ≤ ((150 + y) * 400 + (150 + x)) % 400 ∧
          ((150 + y) * 400 + (150 + x)) % 400 ≤ 250 ∧
          150 ≤ ((150 + y) * 400 + (150 + x)) / 400 ∧
          ((150 + y) * 400 + (150 + x)) / 400 ≤ 250
        then ⟨0, 0, 0, 255⟩ else ⟨255, 255, 255, 255⟩ := rfl
  show (decide (20 < (img400.pix ((150 + y) * 400 + (150 + x))).a)
      && !isBackground (img400.pix ((150 + y) * 400 + (150 + x))).r
           (img400.pix ((150 + y) * 400 + (150 + x))).g
           (img400.pix ((150 + y) * 400 + (150 + x))).b
           (img400.pix ((150 + y) * 400 + (150 + x))).a 240) = true
  rw [hpix, hm, hd]
  rw [if_pos (by omega :
    150 ≤ 150 + x ∧ 150 + x ≤ 250 ∧ 150 ≤ 150 + y ∧ 150 + y ≤ 250)]
  rfl

/-- The running-box update written with `min`/`max`. -/
theorem bboxUpd_mk (a b c d : Nat) (f : Bool) (x y : Nat) :
    bboxUpd ⟨a, b, c, d, f⟩ x y = ⟨min a x, max b x, min c y, max d y, true⟩ := by
  rw [bboxUpd]
  congr 1
  · show (if x < a then x else a) = min a x
    rw [Nat.min_def]
    split_ifs <;> omega
  · show (if b < x then x else b) = max b x
    rw [Nat.max_def]
    split_ifs <;> omega
  · show (if y < c then y else c) = min c y
    rw [Nat.min_def]
    split_ifs <;> omega
  · show (if d < y then y else d) = max d y
    rw [Nat.max_def]
    split_ifs <;> omega

/-- Scanning a fully-qualifying row stretches the running box over the
whole scanned x-range and tags the row's y. -/
theorem row_allqual (src : Img) (rX rY y : Nat)
    (hq : ∀ x, x < 100 → qualPix src rX rY x y = true) :
    ∀ (len lo a b c d : Nat) (f : Bool), lo + len < 100 →
      foldRangeSt (fun st x => if qualPix src rX rY x y then bboxUpd st x y else st)
        (len + 1) lo ⟨a, b, c, d, f⟩
      = ⟨min a lo, max b (lo + len), min c y, max d y, true⟩
  | 0, lo, a, b, c, d, f, hlt => by
    rw [foldRangeSt_succ, foldRangeSt_zero, if_pos (hq lo (by omega)), bboxUpd_mk,
      Nat.add_zero]
  | len + 1, lo, a, b, c, d, f, hlt => by
    rw [foldRangeSt_succ, if_pos (hq lo (by omega)), bboxUpd_mk,
      row_allqual src rX rY y hq len (lo + 1) (min a lo) (max b lo) (min c y) (max d y)
        true (by omega)]
    congr 1 <;> omega

/-- Scanning a block of fully-qualifying rows of width 100 stretches the
running box over x-range 0..99 and the scanned y-range. -/
theorem rows_allqual (src : Img) (rX rY : Nat)
    (hq : ∀ x y, x < 100 → y < 100 → qualPix src rX rY x y = true) :
    ∀ (len lo a b c d : Nat) (f : Bool), lo + len < 100 →
      foldRangeSt (fun st y => foldRangeSt (fun st x =>
          if qualPix src rX rY x y then bboxUpd st x y else st) 100 0 st)
        (len + 1) lo ⟨a, b, c, d, f⟩
      = ⟨min a 0, max b 99, min c lo, max d (lo + len), true⟩
  | 0, lo, a, b, c, d, f, hlt => by
    rw [foldRangeSt_succ, foldRangeSt_zero]
    rw [show foldRangeSt (fun st x =>
          if qualPix src rX rY x lo then bboxUpd st x lo else st) 100 0
          (⟨a, b, c, d, f⟩ : BBoxScan)
        = ⟨min a 0, max b (0 + 99), min c lo, max d lo, true⟩ from
      row_allqual src rX rY lo (fun x hx => hq x lo hx (by omega)) 99 0 a b c d f
        (by omega)]
    rw [Nat.zero_add, Nat.add_zero]
  | len + 1, lo, a, b, c, d, f, hlt => by
    rw [foldRangeSt_succ]
    rw [show foldRangeSt (fun st x =>
          if qualPix src rX rY x lo then bboxUpd st x lo else st) 100 0
          (⟨a, b, c, d, f⟩ : BBoxScan)
        = ⟨min a 0, max b (0 + 99), min c lo, max d lo, true⟩ from
      row_allqual src rX rY lo (fun x hx => hq x lo hx (by omega)) 99 0 a b c d f
        (by omega)]
    rw [rows_allqual src rX rY hq len (lo + 1) (min a 0) (max b (0 + 99)) (min c lo)
      (max d lo) true (by omega)]
    congr 1 <;> omega

/-- The second-pass scan of the 100x100 crop of `img400` finds the full
crop as content box. -/
theorem extractScan400 : extractScan img400 150 150 100 100 = ⟨0, 99, 0, 99, true⟩ := by
  have h2 : extractScan img400 150 150 100 100
      = ⟨min 100 0, max 0 99, min 100 0, max 0 (0 + 99), true⟩ :=
    rows_allqual img400 150 150 (fun x y hx hy => qual400 x y hx hy) 99 0 100 0 100 0
      false (by omega)
  rw [h2]
  decide

/-- Extraction of the grown square of `img400`: the crop is clamped to
`rawW = rawH = 100`, every crop pixel qualifies, and the resulting segment
reports origin (150,150), content box (0,0)-(99,99) and canvas 144x144. -/
theorem extract400 :
    extractStickerFromRect img400 ⟨150, 250, 150, 250⟩
      = some { rawX := 150, rawY := 150, cMinX := 0, cMaxX := 99,
               cMinY := 0, cMaxY := 99, originalX := 150, originalY := 150,
               width := 144, height := 144 } := by
  have hW : rawW img400 ⟨150, 250, 150, 250⟩ = 100 := by decide
  have hH : rawH img400 ⟨150, 250, 150, 250⟩ = 100 := by decide
  have hX : rawX (⟨150, 250, 150, 250⟩ : Rect) = 150 := by decide
  have hY : rawY (⟨150, 250, 150, 250⟩ : Rect) = 150 := by decide
  rw [extractStickerFromRect, hW, hH, hX, hY]
  rw [if_neg (by decide)]
  rw [show ((150 : Int)).toNat = 150 from rfl, show ((100 : Int)).toNat = 100 from rfl]
  rw [extractScan400]
  decide

theorem filterMap_one {α β : Type} (f : α → Option β) (x : α) (b : β)
    (h : f x = some b) : List.filterMap f [x] = [b] := by
  rw [List.filterMap_cons, h, List.filterMap_nil]

/-- The full pipeline on `img400`: exactly one segment, origin (150,150),
content box (0,0)-(99,99) in crop coordinates, canvas 144x144. -/
theorem process400 :
    processStickerSheet img400
      = [{ rawX := 150, rawY := 150, cMinX := 0, cMaxX := 99, cMinY := 0, cMaxY := 99,
           originalX := 150, originalY := 150, width := 144, height := 144 }] := by
  rw [processStickerSheet, extractionRects400, filterMap_one _ _ _ extract400]

/-- Claim C3, counterexample: on the 400x400 canvas with the black square
(150,150)-(250,250), `processStickerSheet` does produce exactly one
segment, but its tight content box does not reach (250,250): the crop width
`rawW = maxX - minX = 100` drops the square's last row and column. -/
theorem c3_counterexample :
    (processStickerSheet img400).length = 1 ∧
    ∀ s ∈ processStickerSheet img400, ¬(s.srcMaxX = 250 ∧ s.srcMaxY = 250) := by
  rw [process400]
  refine ⟨rfl, ?_⟩
  intro s hs
  rw [List.mem_singleton] at hs
  subst hs
  decide

/-- Claim C3, amended: the pipeline on the 400x400 single-square canvas
produces exactly one segment, whose tight content box in source coordinates
is (150,150)-(249,249) — one pixel short of the square's right and bottom
edges, because the crop passed to the second-pass scan has width and height
`maxX - minX = 100` instead of `maxX - minX + 1`. -/
theorem c3_amended :
    processStickerSheet img400
      = [{ rawX := 150, rawY := 150, cMinX := 0, cMaxX := 99, cMinY := 0, cMaxY := 99,
           originalX := 150, originalY := 150, width := 144, height := 144 }] ∧
    ∀ s ∈ processStickerSheet img400,
      s.originalX = 150 ∧ s.originalY = 150 ∧ s.srcMaxX = 249 ∧ s.srcMaxY = 249 := by
  refine ⟨process400, ?_⟩
  intro s hs
  rw [process400, List.mem_singleton] at hs
  subst hs
  decide

end ImageProcessor
